import Mathlib

/-!
# Shop inventory and sales tracker

A shallow embedding of the stock-deduction handler of `src/routes/sales.js`,
the health, margin and price helpers of `src/models/item.js`, and the health
helper and the create and update handlers of `src/routes/items.js`.

Conventions of the embedding.

* JavaScript numbers that hold stock counts (`quantity`, `total_units`,
  `units_per_bale`, `bales_count`, ids) are `Int`; numbers that hold prices,
  ratios and amounts are rationals `ℚ`.  Where a number is rendered as text
  (`toFixed`), the operations that produce it round to the nearest double
  (`roundDouble`); elsewhere amounts are exact.
* A request-body field that is absent (`undefined`) is `none`.
* The SQLite connection is a record of the two tables the handler touches,
  the snapshot taken by an open transaction, and the log of the statements
  executed so far.  Statements take effect in the order they are issued.
* A statement issued with no callback that fails is an unhandled `error`
  event: it ends the process.
* A statement that fails is chosen by the environment (`Env`).
* The body of `PUT /api/items/:id` is the list of its entries, with JSON
  numbers as values.
-/

namespace Grumpy

/-! ## Number formatting -/

/-- Rendering of `x.toFixed(1)`: the sign of `x`, then the integer `n` nearest
to `|x| * 10` (the larger one on a tie) written with one digit after the
point.  Faithful for `|x| < 10^21`, where JavaScript uses plain decimal
notation. -/
def toFixed1 (x : ℚ) : String :=
  let n : ℕ := (Int.floor (|x| * 10 + 1 / 2)).toNat
  (if x < 0 then "-" else "") ++ toString (n / 10) ++ "." ++ toString (n % 10)

/-! ## Double-precision arithmetic -/

/-- The integer nearest to `q`, the even one on a tie. -/
def roundHalfEven (q : ℚ) : ℤ :=
  let f := Int.floor q
  let r := q - (f : ℚ)
  if r < 1 / 2 then f else if 1 / 2 < r then f + 1 else if f % 2 = 0 then f else f + 1

/-- The value of the JavaScript Number that an arithmetic operation with exact
result `x` produces: the nearest number with a 53-bit significand, the even one
on a tie.  Faithful while `|x|` is 0 or within the normal range of a double
(from `2^-1022` to below `2^1024`). -/
def roundDouble (x : ℚ) : ℚ :=
  if x = 0 then 0
  else
    let e : ℤ := Int.log 2 |x| - 52
    (roundHalfEven (x / (2 : ℚ) ^ e) : ℚ) * (2 : ℚ) ^ e

/-! ## `src/models/item.js` -/

/-- The object returned by the health helpers; `percentage` is `none` when the
property is not set on the object. -/
structure Health where
  status : String
  color : String
  percentage : Option String
deriving DecidableEq, Repr

/-- The function `calculateHealth(totalUnits, balesCount, unitsPerBale)` of
`src/models/item.js`.  The percentage is rendered from the doubles the code
computes.  The test against 0.8 is made on the exact ratio: the doubles
compare the same way while the counts are below `2^53`. -/
def calculateHealth (totalUnits balesCount unitsPerBale : Int) : Health :=
  let capacity := balesCount * unitsPerBale
  if capacity ≤ 0 then
    { status := "unknown", color := "gray", percentage := some "0.0" }
  else
    let perc : ℚ := (totalUnits : ℚ) / (capacity : ℚ)
    let percentageStr := toFixed1 (roundDouble (roundDouble perc * 100))
    if perc ≥ 0.8 then
      { status := "strong", color := "blue", percentage := some percentageStr }
    else
      { status := "weak", color := "orange", percentage := some percentageStr }

/-- The function `calculateProfitMargin(sellingPrice, landingPrice)` of
`src/models/item.js`, each of the three operations giving a double.  The
arguments are the exact values of the Numbers passed. -/
def calculateProfitMargin (sellingPrice landingPrice : ℚ) : String :=
  if landingPrice ≤ 0 then "0.0"
  else
    let margin :=
      roundDouble (roundDouble (roundDouble (sellingPrice - landingPrice) / landingPrice) * 100)
    toFixed1 margin

/-! ## Tables -/

/-- A row of the `items` table (`src/database.js`). -/
structure Item where
  id : Int
  subcategory_id : Int
  name : String
  bales_count : Int
  units_per_bale : Int
  total_units : Int
  bale_price : ℚ
  unit_price : ℚ
  landing_price : ℚ
  selling_price : ℚ
  health_status : String
  health_color : String
  created_at : Nat
  updated_at : Nat
deriving DecidableEq, Repr

/-- A row of the `sales` table (`src/database.js`). -/
structure Sale where
  id : Int
  item_id : Int
  type : String
  quantity : Int
  price : ℚ
  total_amount : ℚ
  created_at : Nat
deriving DecidableEq, Repr

/-! ## `src/routes/items.js`: health attached to item rows -/

/-- The helper `getHealth(totalUnits, bales, unitsPerBale)` local to
`src/routes/items.js`.  On zero capacity the returned object has no
`percentage` property.  Doubles are treated as in `calculateHealth`. -/
def getHealth (totalUnits bales unitsPerBale : Int) : Health :=
  let capacity := bales * unitsPerBale
  if capacity = 0 then { status := "unknown", color := "gray", percentage := none }
  else
    let perc : ℚ := (totalUnits : ℚ) / (capacity : ℚ)
    { status := if perc ≥ 0.8 then "strong" else "weak",
      color := if perc ≥ 0.8 then "blue" else "orange",
      percentage := some (toFixed1 (roundDouble (roundDouble perc * 100))) }

/-- An item row as sent by `GET /api/items` and `PUT /api/items/:id`: the row
spread, then `health_status`, `health_color` and `health_percentage`, which
supersede the stored columns of the same name. -/
structure EnrichedItem where
  row : Item
  health_status : String
  health_color : String
  health_percentage : Option String
deriving DecidableEq, Repr

/-- The mapping applied to each row in `GET /api/items` (and to the re-read
row in `PUT /api/items/:id`). -/
def enrich (row : Item) : EnrichedItem :=
  let h := getHealth row.total_units row.bales_count row.units_per_bale
  { row := row,
    health_status := h.status,
    health_color := h.color,
    health_percentage := h.percentage }

/-! ## The database connection -/

/-- The SQL statements issued by `POST /api/sales`. -/
inductive Stmt where
  | beginTransaction
  | rollback
  | commit
  | selectItem (item_id : Int)
  | insertSale (item_id : Int) (type : String) (quantity : Int) (price total_amount : ℚ)
  | updateStock (unitsToDeduct item_id : Int)
deriving DecidableEq, Repr

/-- The shared connection `db`: the two tables, the state saved by the open
transaction (if any), and the statements executed so far. -/
structure Db where
  items : List Item
  sales : List Sale
  txn : Option (List Item × List Sale)
  log : List Stmt
deriving DecidableEq, Repr

/-- What the environment decides for one request: the value of
`CURRENT_TIMESTAMP` and which statements report an error. -/
structure Env where
  now : Nat
  getErr : Bool
  insertErr : Bool
  updateErr : Bool
deriving DecidableEq, Repr

/-- The effect of `BEGIN TRANSACTION` on the connection: saves the tables.
Inside a transaction already open the statement fails and changes nothing;
what that failure does to the process, no callback being passed, is told by
`unobservedFailure` and `Loop.next`. -/
def Db.beginTransaction (db : Db) : Db :=
  { db with
    txn := match db.txn with
      | none => some (db.items, db.sales)
      | some s => some s,
    log := db.log ++ [Stmt.beginTransaction] }

/-- The effect of `ROLLBACK` on the connection: restores the tables saved by
`BEGIN TRANSACTION` and closes the transaction.  Outside a transaction the
statement fails and changes nothing (see `unobservedFailure` for the
process). -/
def Db.rollback (db : Db) : Db :=
  match db.txn with
  | some (items, sales) =>
    { items := items, sales := sales, txn := none, log := db.log ++ [Stmt.rollback] }
  | none => { db with log := db.log ++ [Stmt.rollback] }

/-- The effect of `COMMIT` on the connection: keeps the tables as they are and
closes the transaction.  Outside a transaction the statement fails and
changes nothing (see `unobservedFailure` for the process). -/
def Db.commit (db : Db) : Db :=
  { db with txn := none, log := db.log ++ [Stmt.commit] }

/-- The query `SELECT total_units, units_per_bale, bale_price, unit_price FROM
items WHERE id = ?`: the row delivered to the callback of `db.get`. -/
def Db.getItem (db : Db) (item_id : Int) : Option Item :=
  db.items.find? (fun it => it.id == item_id)

/-- The id given to the next row of an `AUTOINCREMENT` table. -/
def nextSaleId (sales : List Sale) : Int :=
  sales.foldl (fun m s => max m s.id) 0 + 1

/-- The statement `INSERT INTO sales (item_id, type, quantity, price,
total_amount) VALUES (?, ?, ?, ?, ?)`: the table with the new row, and
`this.lastID`. -/
def Db.insertSale (db : Db) (now : Nat) (item_id : Int) (type : String) (quantity : Int)
    (price total_amount : ℚ) : Db × Int :=
  let saleId := nextSaleId db.sales
  ({ db with
     sales := db.sales ++ [{ id := saleId, item_id := item_id, type := type,
                             quantity := quantity, price := price,
                             total_amount := total_amount, created_at := now }],
     log := db.log ++ [Stmt.insertSale item_id type quantity price total_amount] },
   saleId)

/-- The statement `UPDATE items SET total_units = total_units - ?, updated_at =
CURRENT_TIMESTAMP WHERE id = ?`. -/
def Db.updateStock (db : Db) (now : Nat) (unitsToDeduct item_id : Int) : Db :=
  { db with
    items := db.items.map (fun it =>
      if it.id = item_id then
        { it with total_units := it.total_units - unitsToDeduct, updated_at := now }
      else it),
    log := db.log ++ [Stmt.updateStock unitsToDeduct item_id] }

/-- A statement that leaves the tables as they are (a `SELECT`, or a statement
that reported an error): it is only logged. -/
def Db.logged (db : Db) (s : Stmt) : Db :=
  { db with log := db.log ++ [s] }

/-! ## `POST /api/sales` (`src/routes/sales.js`) -/

/-- The JSON body of `POST /api/sales`. -/
structure SaleRequest where
  item_id : Option Int
  type : Option String
  quantity : Option Int
  price : Option ℚ
deriving DecidableEq, Repr

/-- The responses of `POST /api/sales`. -/
inductive Response where
  /-- Status 400, `Missing or invalid required fields: item_id, type, quantity, price` -/
  | invalidFields
  /-- Status 400, `Type must be "unit" or "bale"` -/
  | invalidType
  /-- Status 500, `Database error` -/
  | databaseError
  /-- Status 404, `Item not found` -/
  | itemNotFound
  /-- Status 400, `Insufficient stock` with `available` and `requested` -/
  | insufficientStock (available requested : Int)
  /-- Status 500, `Failed to record sale` -/
  | recordFailed
  /-- Status 500, `Failed to update stock` -/
  | updateFailed
  /-- Status 201 with the recorded sale -/
  | created (sale_id item_id : Int) (type : String) (quantity : Int)
      (price total_amount : ℚ) (units_deducted : Int)
deriving DecidableEq, Repr

/-- The HTTP status of a response. -/
def Response.status : Response → Nat
  | .invalidFields => 400
  | .invalidType => 400
  | .databaseError => 500
  | .itemNotFound => 404
  | .insufficientStock _ _ => 400
  | .recordFailed => 500
  | .updateFailed => 500
  | .created _ _ _ _ _ _ _ => 201

/-- The variables captured by the callback of `db.get`. -/
structure GetArgs where
  item_id : Int
  type : String
  quantity : Int
  price : ℚ
deriving DecidableEq, Repr

/-- The variables captured by the callback of the `INSERT`. -/
structure InsertArgs where
  item_id : Int
  type : String
  quantity : Int
  salePrice : ℚ
  totalAmount : ℚ
  unitsToDeduct : Int
deriving DecidableEq, Repr

/-- The variables captured by the callback of the `UPDATE`. -/
structure UpdateArgs where
  saleId : Int
  item_id : Int
  type : String
  quantity : Int
  salePrice : ℚ
  totalAmount : ℚ
  unitsToDeduct : Int
deriving DecidableEq, Repr

/-- The synchronous part of the handler (lines 11-33): validation, then
`BEGIN TRANSACTION`, then the `SELECT` is handed to the connection. -/
def saleStart (db : Db) (req : SaleRequest) : (Response ⊕ GetArgs) × Db :=
  match req.item_id, req.type, req.quantity, req.price with
  | some item_id, some type, some quantity, some price =>
    if item_id = 0 ∨ type = "" ∨ quantity = 0 ∨ quantity ≤ 0 ∨ price = 0 then
      (.inl .invalidFields, db)
    else if ¬ (["unit", "bale"].contains type) then
      (.inl .invalidType, db)
    else
      (.inr { item_id := item_id, type := type, quantity := quantity, price := price },
       db.beginTransaction)
  | _, _, _, _ => (.inl .invalidFields, db)

/-- The callback of `db.get` (lines 34-75), run when the `SELECT` has
executed. -/
def onGet (env : Env) (db : Db) (a : GetArgs) : (Response ⊕ InsertArgs) × Db :=
  let db1 := db.logged (Stmt.selectItem a.item_id)
  if env.getErr then (.inl .databaseError, db1.rollback)
  else
    match db1.getItem a.item_id with
    | none => (.inl .itemNotFound, db1.rollback)
    | some item =>
      let unitsToDeduct : Int :=
        if a.type = "bale" then a.quantity * item.units_per_bale else a.quantity
      let effectivePricePerUnit : ℚ :=
        if a.type = "bale" then item.bale_price / (item.units_per_bale : ℚ)
        else item.unit_price
      let salePrice : ℚ := if a.price ≠ 0 then a.price else effectivePricePerUnit
      if item.total_units < unitsToDeduct then
        (.inl (.insufficientStock item.total_units unitsToDeduct), db1.rollback)
      else
        let totalAmount : ℚ := (a.quantity : ℚ) * salePrice
        (.inr { item_id := a.item_id, type := a.type, quantity := a.quantity,
                salePrice := salePrice, totalAmount := totalAmount,
                unitsToDeduct := unitsToDeduct }, db1)

/-- The callback of the `INSERT` (lines 76-90), run when the `INSERT` has
executed. -/
def onInsert (env : Env) (db : Db) (a : InsertArgs) : (Response ⊕ UpdateArgs) × Db :=
  if env.insertErr then
    (.inl .recordFailed,
     (db.logged (Stmt.insertSale a.item_id a.type a.quantity a.salePrice a.totalAmount)).rollback)
  else
    let r := db.insertSale env.now a.item_id a.type a.quantity a.salePrice a.totalAmount
    (.inr { saleId := r.2, item_id := a.item_id, type := a.type, quantity := a.quantity,
            salePrice := a.salePrice, totalAmount := a.totalAmount,
            unitsToDeduct := a.unitsToDeduct }, r.1)

/-- The callback of the `UPDATE` (lines 91-110), run when the `UPDATE` has
executed. -/
def onUpdate (env : Env) (db : Db) (a : UpdateArgs) : Response × Db :=
  if env.updateErr then
    (.updateFailed, (db.logged (Stmt.updateStock a.unitsToDeduct a.item_id)).rollback)
  else
    (.created a.saleId a.item_id a.type a.quantity a.salePrice a.totalAmount a.unitsToDeduct,
     (db.updateStock env.now a.unitsToDeduct a.item_id).commit)

/-- The handler `router.post('/')` of `src/routes/sales.js` run to its
response with no other request in between.  Started with no transaction open,
none of its statements fails unobserved (`postSale_observes_failures`). -/
def postSale (env : Env) (db : Db) (req : SaleRequest) : Response × Db :=
  match saleStart db req with
  | (.inl r, d0) => (r, d0)
  | (.inr g, d0) =>
    match onGet env d0 g with
    | (.inl r, d1) => (r, d1)
    | (.inr i, d1) =>
      match onInsert env d1 i with
      | (.inl r, d2) => (r, d2)
      | (.inr u, d2) => onUpdate env d2 u

/-! ## Two requests on the event loop -/

/-- Where a request stands: not yet received, waiting on a statement, or
answered. -/
inductive Proc where
  | arriving (req : SaleRequest)
  | awaitGet (a : GetArgs)
  | awaitInsert (a : InsertArgs)
  | awaitUpdate (a : UpdateArgs)
  | responded (r : Response)
deriving DecidableEq, Repr

/-- The next piece of JavaScript run for a request: the handler body, or the
callback of the statement it waits on. -/
def Proc.step (env : Env) (db : Db) : Proc → Proc × Db
  | .arriving req =>
    match saleStart db req with
    | (.inl r, d) => (.responded r, d)
    | (.inr g, d) => (.awaitGet g, d)
  | .awaitGet a =>
    match onGet env db a with
    | (.inl r, d) => (.responded r, d)
    | (.inr i, d) => (.awaitInsert i, d)
  | .awaitInsert a =>
    match onInsert env db a with
    | (.inl r, d) => (.responded r, d)
    | (.inr u, d) => (.awaitUpdate u, d)
  | .awaitUpdate a =>
    match onUpdate env db a with
    | (r, d) => (.responded r, d)
  | .responded r => (.responded r, db)

/-- Whether one of the statements `stmts`, run in this order on a connection
whose transaction is open (`true`) or not, is a `BEGIN TRANSACTION`, `ROLLBACK`
or `COMMIT` that fails: a `BEGIN` inside a transaction, a `ROLLBACK` or
`COMMIT` outside one.  The handler issues these three with no callback, and
neither `src/database.js` nor `src/index.js` listens for `error`: such a
failure is an unhandled `error` event, which ends the Node process. -/
def unobservedFailure : Bool → List Stmt → Bool
  | _, [] => false
  | txnOpen, .beginTransaction :: rest => txnOpen || unobservedFailure true rest
  | txnOpen, .rollback :: rest => !txnOpen || unobservedFailure false rest
  | txnOpen, .commit :: rest => !txnOpen || unobservedFailure false rest
  | txnOpen, _ :: rest => unobservedFailure txnOpen rest

/-- The tables as they are on disk: those saved at `BEGIN TRANSACTION` while a
transaction is open and not committed, the current ones otherwise. -/
def Db.durable (db : Db) : List Item × List Sale :=
  match db.txn with
  | some saved => saved
  | none => (db.items, db.sales)

/-- The Node process serving two requests on the shared connection: running,
or ended by an unhandled `error` event, with the tables left on disk and the
two requests as they stood. -/
inductive Loop where
  | running (db : Db) (a b : Proc)
  | ended (items : List Item) (sales : List Sale) (a b : Proc)
deriving DecidableEq, Repr

/-- One turn of the event loop: the first request (`false`) or the second
(`true`) runs its next piece of JavaScript, whose statements execute.  If one
of them fails with no callback to receive the error, the process ends. -/
def Loop.next (env : Env) : Loop → Bool → Loop
  | .ended items sales a b, _ => .ended items sales a b
  | .running db a b, who =>
    let r := (if who then b else a).step env db
    let a2 := if who then a else r.1
    let b2 := if who then r.1 else b
    if unobservedFailure db.txn.isSome (r.2.log.drop db.log.length) then
      .ended r.2.durable.1 r.2.durable.2 a2 b2
    else .running r.2 a2 b2

/-- The process run under a schedule of turns. -/
def runSchedule (env : Env) (start : Loop) (schedule : List Bool) : Loop :=
  schedule.foldl (Loop.next env) start

/-- The `total_units` column of the item with the given id. -/
def Db.totalUnits (db : Db) (item_id : Int) : Option Int :=
  (db.getItem item_id).map (fun it => it.total_units)

/-! ## `src/models/item.js`: unit price fallback -/

/-- The properties of `item` read by `getEffectiveUnitPrice`; `none` is a
property that is not set. -/
structure PricedItem where
  bale_price : ℚ
  units_per_bale : Option Int
  unit_price : Option ℚ
deriving DecidableEq, Repr

/-- The function `getEffectiveUnitPrice(type, item)` of `src/models/item.js`.
The divisor is `item.units_per_bale || 1`, the other branch is
`item.unit_price || 0`. -/
def getEffectiveUnitPrice (type : String) (item : PricedItem) : ℚ :=
  if type = "bale" then
    let divisor : Int :=
      match item.units_per_bale with
      | some n => if n ≠ 0 then n else 1
      | none => 1
    item.bale_price / (divisor : ℚ)
  else
    match item.unit_price with
    | some p => if p ≠ 0 then p else 0
    | none => 0

/-! ## `POST /api/items` (`src/routes/items.js`) -/

/-- The JSON body of `POST /api/items`. -/
structure NewItemRequest where
  subcategory_id : Option Int
  name : Option String
  bales_count : Option Int
  units_per_bale : Option Int
  total_units : Option Int
  bale_price : Option ℚ
  unit_price : Option ℚ
  landing_price : Option ℚ
  selling_price : Option ℚ
deriving DecidableEq, Repr

/-- The responses of `POST /api/items`. -/
inductive NewItemResponse where
  /-- Status 500 with the message of the failed `INSERT` -/
  | insertFailed
  /-- Status 201 with the id of the new row -/
  | created (id : Int)
deriving DecidableEq, Repr

/-- The HTTP status of a response of `POST /api/items`. -/
def NewItemResponse.status : NewItemResponse → Nat
  | .insertFailed => 500
  | .created _ => 201

/-- The id given to the next row of the `items` table. -/
def nextItemId (items : List Item) : Int :=
  items.foldl (fun m it => max m it.id) 0 + 1

/-- The handler `router.post('/')` of `src/routes/items.js`.  The `INSERT`
fails when the environment says so, when `subcategory_id` or `name` is not
given (`NOT NULL`), or when a row with the same `subcategory_id` and `name`
exists (`UNIQUE`). -/
def postItem (env : Env) (items : List Item) (req : NewItemRequest) :
    NewItemResponse × List Item :=
  let bales_count : Int := req.bales_count.getD 0
  let units_per_bale : Int := req.units_per_bale.getD 0
  let bale_price : ℚ := req.bale_price.getD 0
  let unit_price : ℚ := req.unit_price.getD 0
  let landing_price : ℚ := req.landing_price.getD 0
  let selling_price : ℚ := req.selling_price.getD 0
  let finalTotal : Int :=
    match req.total_units with
    | some v => v
    | none => bales_count * units_per_bale
  let health := getHealth finalTotal bales_count units_per_bale
  match req.subcategory_id, req.name with
  | some subcategory_id, some name =>
    if env.insertErr ∨
        items.any (fun it => it.subcategory_id == subcategory_id && it.name == name) then
      (.insertFailed, items)
    else
      let id := nextItemId items
      (.created id,
       items ++ [{ id := id, subcategory_id := subcategory_id, name := name,
                   bales_count := bales_count, units_per_bale := units_per_bale,
                   total_units := finalTotal, bale_price := bale_price,
                   unit_price := unit_price, landing_price := landing_price,
                   selling_price := selling_price, health_status := health.status,
                   health_color := health.color, created_at := env.now,
                   updated_at := env.now }])
  | _, _ => (.insertFailed, items)

/-! ## `PUT /api/items/:id` (`src/routes/items.js`) -/

/-- The keys accepted by `PUT /api/items/:id`. -/
def recognisedFields : List String :=
  ["bales_count", "units_per_bale", "total_units", "bale_price", "unit_price",
   "landing_price", "selling_price"]

/-- The statement `UPDATE items SET ... WHERE id = ?` built by the handler:
the columns `c` whose fragment `c = ?` is in the `SET` clause, the values
bound to them in the same order, whether `updated_at = CURRENT_TIMESTAMP` is
in the clause, and the id bound last.  Bound values are JSON numbers. -/
structure ItemUpdate where
  columns : List String
  params : List ℚ
  touchUpdatedAt : Bool
  id : Int
deriving DecidableEq, Repr

/-- The loop over `Object.entries(updates)`: `fields` and `params` after it. -/
def putCollect {V : Type} (updates : List (String × V)) : List String × List V :=
  updates.foldl
    (fun acc kv =>
      if recognisedFields.contains kv.1 then (acc.1 ++ [kv.1], acc.2 ++ [kv.2]) else acc)
    ([], [])

/-- The test `updates.bales_count !== undefined || updates.units_per_bale !==
undefined || updates.total_units !== undefined`. -/
def touchesStock {V : Type} (updates : List (String × V)) : Bool :=
  (updates.lookup "bales_count").isSome || (updates.lookup "units_per_bale").isSome
    || (updates.lookup "total_units").isSome

/-- The integer that a JSON number is, when it is one. -/
def asInteger (v : ℚ) : Option Int :=
  if v.den = 1 then some v.num else none

/-- The assignment `key = ?` of the `SET` clause on one row, `v` being the
bound value.  The three count columns of a row hold integers: the result is
`none` when `v` is not one, SQLite then storing a value the row type `Item`
does not have.  It is `none` too for a name that is not one of the seven
columns, which the handler never puts in the clause. -/
def writeCell (it : Item) (key : String) (v : ℚ) : Option Item :=
  if key = "bales_count" then (asInteger v).map (fun n => { it with bales_count := n })
  else if key = "units_per_bale" then
    (asInteger v).map (fun n => { it with units_per_bale := n })
  else if key = "total_units" then (asInteger v).map (fun n => { it with total_units := n })
  else if key = "bale_price" then some { it with bale_price := v }
  else if key = "unit_price" then some { it with unit_price := v }
  else if key = "landing_price" then some { it with landing_price := v }
  else if key = "selling_price" then some { it with selling_price := v }
  else none

/-- The assignments of the `SET` clause on one row, in order. -/
def writeCells (it : Item) : List (String × ℚ) → Option Item
  | [] => some it
  | kv :: rest => (writeCell it kv.1 kv.2).bind (fun written => writeCells written rest)

/-- The effect of the statement on one row it selects. -/
def ItemUpdate.applyTo (now : Nat) (u : ItemUpdate) (it : Item) : Option Item :=
  (writeCells it (u.columns.zip u.params)).map
    (fun written => if u.touchUpdatedAt then { written with updated_at := now } else written)

/-- The effect of the statement on the table: the rows `WHERE id = ?` are
rewritten, the others kept. -/
def ItemUpdate.exec (now : Nat) (u : ItemUpdate) : List Item → Option (List Item)
  | [] => some []
  | it :: rest =>
    (if it.id = u.id then u.applyTo now it else some it).bind
      (fun it2 => (ItemUpdate.exec now u rest).map (fun rest2 => it2 :: rest2))

/-- The number in a numeric column of a row, by the column's name. -/
def Item.cell (it : Item) (key : String) : Option ℚ :=
  if key = "bales_count" then some (it.bales_count : ℚ)
  else if key = "units_per_bale" then some (it.units_per_bale : ℚ)
  else if key = "total_units" then some (it.total_units : ℚ)
  else if key = "bale_price" then some it.bale_price
  else if key = "unit_price" then some it.unit_price
  else if key = "landing_price" then some it.landing_price
  else if key = "selling_price" then some it.selling_price
  else none

/-- The columns that `PUT /api/items/:id` never names, apart from `updated_at`,
are the same in the two rows. -/
def Item.sameFixedColumns (a b : Item) : Prop :=
  a.id = b.id ∧ a.subcategory_id = b.subcategory_id ∧ a.name = b.name
    ∧ a.health_status = b.health_status ∧ a.health_color = b.health_color
    ∧ a.created_at = b.created_at

/-- The responses of `PUT /api/items/:id`. -/
inductive UpdateItemResponse where
  /-- Status 400, `No valid fields to update` -/
  | noValidFields
  /-- Status 500 with the message of the failed `UPDATE` -/
  | updateFailed
  /-- Status 404, `Item not found` -/
  | itemNotFound
  /-- Status 200 with the row read back and its health -/
  | ok (row : EnrichedItem)
deriving DecidableEq, Repr

/-- The HTTP status of a response of `PUT /api/items/:id`. -/
def UpdateItemResponse.status : UpdateItemResponse → Nat
  | .noValidFields => 400
  | .updateFailed => 500
  | .itemNotFound => 404
  | .ok _ => 200

/-- The handler `router.put('/:id')` of `src/routes/items.js`, the body being
the list of its entries with JSON numbers as values: the response, the table
afterwards, and the `UPDATE` handed to the connection, if any.  The result is
`none` when the statement binds a non-integer to a count column (see
`writeCell`). -/
def putItem (env : Env) (items : List Item) (id : Int) (updates : List (String × ℚ)) :
    Option (UpdateItemResponse × List Item × Option ItemUpdate) :=
  let collected := putCollect updates
  let touch := touchesStock updates
  let fieldsLength : Nat := collected.1.length + (if touch then 1 else 0)
  if fieldsLength = 0 then some (.noValidFields, items, none)
  else
    let u : ItemUpdate :=
      { columns := collected.1, params := collected.2, touchUpdatedAt := touch, id := id }
    if env.updateErr then some (.updateFailed, items, some u)
    else
      match u.exec env.now items with
      | none => none
      | some items2 =>
        if env.getErr then some (.itemNotFound, items2, some u)
        else
          match items2.find? (fun it => it.id == id) with
          | none => some (.itemNotFound, items2, some u)
          | some row => some (.ok (enrich row), items2, some u)

/-! ## Sales one after the other -/

/-- Requests handled one at a time, each run to its response before the next
arrives, each with its own environment. -/
def runSales (db : Db) (reqs : List (Env × SaleRequest)) : Db :=
  reqs.foldl (fun d r => (postSale r.1 d r.2).2) db

/-! ## Sample data -/

/-- An item row with the given `bales_count`, `units_per_bale` and
`total_units`, and id 1. -/
def sampleItem (bales_count units_per_bale total_units : Int) : Item :=
  { id := 1, subcategory_id := 1, name := "A4", bales_count := bales_count,
    units_per_bale := units_per_bale, total_units := total_units, bale_price := 40,
    unit_price := 12, landing_price := 8, selling_price := 12, health_status := "strong",
    health_color := "blue", created_at := 0, updated_at := 0 }

/-- A connection whose `items` table holds the one sample row, with no sale
recorded and no transaction open. -/
def sampleDb (bales_count units_per_bale total_units : Int) : Db :=
  { items := [sampleItem bales_count units_per_bale total_units], sales := [], txn := none,
    log := [] }

/-- An environment in which no statement fails. -/
def quietEnv : Env :=
  { now := 7, getErr := false, insertErr := false, updateErr := false }

/-- A request for `quantity` units or bales of item 1 at price 12. -/
def sampleRequest (type : String) (quantity : Int) : SaleRequest :=
  { item_id := some 1, type := some type, quantity := some quantity, price := some 12 }

/-- A body of `POST /api/items` with the given stock fields, in subcategory 1
under the name `A5`. -/
def sampleNewItem (bales_count units_per_bale total_units : Option Int) : NewItemRequest :=
  { subcategory_id := some 1, name := some "A5", bales_count := bales_count,
    units_per_bale := units_per_bale, total_units := total_units, bale_price := none,
    unit_price := none, landing_price := none, selling_price := none }

/-! ## The sales handler run alone -/

/-- A request whose four fields are present, with a non-zero `item_id`, a type
`unit` or `bale`, a positive quantity and a non-zero price passes both
validation checks: the transaction is begun and the `SELECT` is issued. -/
theorem saleStart_valid (db : Db) (i : Int) (t : String) (q : Int) (p : ℚ)
    (hi : i ≠ 0) (ht : t = "unit" ∨ t = "bale") (hq : 0 < q) (hp : p ≠ 0) :
    saleStart db { item_id := some i, type := some t, quantity := some q, price := some p }
      = (.inr { item_id := i, type := t, quantity := q, price := p }, db.beginTransaction) := by
  have hq0 : q ≠ 0 := by omega
  have hq1 : ¬ q ≤ 0 := by omega
  rcases ht with rfl | rfl <;> simp [saleStart, hi, hp, hq0, hq1]

/-- Looking a row up by id commutes with a row-wise update that keeps ids. -/
theorem find_map_id (l : List Item) (f : Item → Item) (i : Int)
    (hf : ∀ it, (f it).id = it.id) :
    (l.map f).find? (fun it => it.id == i) = (l.find? (fun it => it.id == i)).map f := by
  induction l with
  | nil => rfl
  | cons a l ih =>
    simp only [List.map_cons, List.find?_cons, hf]
    cases h : (a.id == i) <;> simp [ih]

/-- Claim C1.  A valid request (accepted by the handler's validation: `item_id`
and price present and non-zero, type `unit` or `bale`, quantity positive) on
an existing item whose `total_units` is below the units to deduct (quantity ×
`units_per_bale` for a bale, quantity for a unit) is answered with the
insufficient-stock error, status 400, `available = total_units`, `requested` =
the units to deduct; no sale row is inserted and the items, hence the item's
`total_units`, are unchanged.  The store answers the `SELECT` without error and
no transaction is open when the request arrives. -/
theorem insufficient_stock_rejected (env : Env) (db : Db) (i : Int) (t : String) (q : Int)
    (p : ℚ) (item : Item)
    (hi : i ≠ 0) (ht : t = "unit" ∨ t = "bale") (hq : 0 < q) (hp : p ≠ 0)
    (hget : env.getErr = false) (htxn : db.txn = none)
    (hitem : db.getItem i = some item)
    (hstock : item.total_units < (if t = "bale" then q * item.units_per_bale else q)) :
    ∃ db2 : Db,
      postSale env db { item_id := some i, type := some t, quantity := some q, price := some p }
        = (.insufficientStock item.total_units
            (if t = "bale" then q * item.units_per_bale else q), db2)
      ∧ (Response.insufficientStock item.total_units
            (if t = "bale" then q * item.units_per_bale else q)).status = 400
      ∧ db2.sales = db.sales ∧ db2.items = db.items
      ∧ db2.totalUnits i = some item.total_units := by
  have hg : (db.beginTransaction.logged (Stmt.selectItem i)).getItem i = some item := hitem
  refine ⟨(db.beginTransaction.logged (Stmt.selectItem i)).rollback, ?_, rfl, ?_, ?_, ?_⟩
  · simp only [postSale, saleStart_valid db i t q p hi ht hq hp, onGet, hget, hg]
    simp [hstock]
  · simp [Db.rollback, Db.beginTransaction, Db.logged, htxn]
  · simp [Db.rollback, Db.beginTransaction, Db.logged, htxn]
  · simp only [Db.rollback, Db.beginTransaction, Db.logged, htxn, Db.totalUnits]
    show Option.map _ (db.getItem i) = _
    rw [hitem]; rfl

/-- The run of the handler on a valid request with enough stock when no
statement fails: the response and the final state of the connection. -/
theorem postSale_success (env : Env) (db : Db) (i : Int) (t : String) (q : Int)
    (p : ℚ) (item : Item)
    (hi : i ≠ 0) (ht : t = "unit" ∨ t = "bale") (hq : 0 < q) (hp : p ≠ 0)
    (hget : env.getErr = false) (hins : env.insertErr = false) (hupd : env.updateErr = false)
    (hitem : db.getItem i = some item)
    (hstock : (if t = "bale" then q * item.units_per_bale else q) ≤ item.total_units) :
    postSale env db { item_id := some i, type := some t, quantity := some q, price := some p }
      = (.created (nextSaleId db.sales) i t q p ((q : ℚ) * p)
            (if t = "bale" then q * item.units_per_bale else q),
         ((((db.beginTransaction.logged (Stmt.selectItem i)).insertSale env.now i t q p
              ((q : ℚ) * p)).1).updateStock env.now
              (if t = "bale" then q * item.units_per_bale else q) i).commit) := by
  have hg : (db.beginTransaction.logged (Stmt.selectItem i)).getItem i = some item := hitem
  have hs : ¬ item.total_units < (if t = "bale" then q * item.units_per_bale else q) := by omega
  simp only [postSale, saleStart_valid db i t q p hi ht hq hp, onGet, hget, hg]
  simp only [hs, if_false, onInsert, hins, onUpdate, hupd]
  simp [hp, Db.insertSale, Db.logged, Db.beginTransaction]

/-- The row returned for an id carries that id. -/
theorem getItem_id (db : Db) (i : Int) (item : Item) (h : db.getItem i = some item) :
    item.id = i := by
  have := List.find?_some h
  simpa using this

/-- After the stock `UPDATE` the item's `total_units` is its previous value
minus the deducted units. -/
theorem totalUnits_updateStock (db : Db) (now : Nat) (d i : Int) (item : Item)
    (h : db.getItem i = some item) :
    (db.updateStock now d i).totalUnits i = some (item.total_units - d) := by
  have hid := getItem_id db i item h
  simp only [Db.totalUnits, Db.getItem, Db.updateStock]
  rw [find_map_id _ _ _ (by intro it; split <;> rfl)]
  have : db.items.find? (fun it => it.id == i) = some item := h
  rw [this]
  simp [hid]

/-- Claim C2.  A valid request on an existing item whose `total_units` is at
least the units to deduct (quantity × `units_per_bale` for a bale, quantity
for a unit) succeeds when no statement fails: the response is the 201 response
whose `units_deducted` is that amount, and the item's `total_units` ends equal
to its previous value minus that amount. -/
theorem sale_deducts_stock (env : Env) (db : Db) (i : Int) (t : String) (q : Int)
    (p : ℚ) (item : Item)
    (hi : i ≠ 0) (ht : t = "unit" ∨ t = "bale") (hq : 0 < q) (hp : p ≠ 0)
    (hget : env.getErr = false) (hins : env.insertErr = false) (hupd : env.updateErr = false)
    (hitem : db.getItem i = some item)
    (hstock : (if t = "bale" then q * item.units_per_bale else q) ≤ item.total_units) :
    ∃ (db2 : Db) (sale_id : Int) (price total_amount : ℚ),
      postSale env db { item_id := some i, type := some t, quantity := some q, price := some p }
        = (.created sale_id i t q price total_amount
            (if t = "bale" then q * item.units_per_bale else q), db2)
      ∧ db2.totalUnits i
          = some (item.total_units - (if t = "bale" then q * item.units_per_bale else q)) := by
  refine ⟨_, _, _, _, postSale_success env db i t q p item hi ht hq hp hget hins hupd hitem hstock,
    ?_⟩
  exact totalUnits_updateStock _ env.now _ i item hitem

/-- A request with four present fields that is not valid in the sense of
`saleStart_valid` is answered in the synchronous part with one of the two
validation errors, the connection untouched. -/
theorem saleStart_invalid_of_not (db : Db) (i : Int) (t : String) (q : Int) (p : ℚ)
    (h : ¬ (i ≠ 0 ∧ (t = "unit" ∨ t = "bale") ∧ 0 < q ∧ p ≠ 0)) :
    ∃ r, saleStart db { item_id := some i, type := some t, quantity := some q, price := some p }
      = (.inl r, db) ∧ r.status = 400 ∧ (r = .invalidFields ∨ r = .invalidType) := by
  by_cases hf : i = 0 ∨ t = "" ∨ q = 0 ∨ q ≤ 0 ∨ p = 0
  · exact ⟨.invalidFields, by simp [saleStart, hf], rfl, Or.inl rfl⟩
  · have ht : ¬ (t = "unit" ∨ t = "bale") := by
      intro ht
      apply h
      refine ⟨fun e => hf (Or.inl e), ht, ?_, fun e => hf (Or.inr (Or.inr (Or.inr (Or.inr e))))⟩
      by_contra hq
      exact hf (Or.inr (Or.inr (Or.inr (Or.inl (not_lt.mp hq)))))
    refine ⟨.invalidType, ?_, rfl, Or.inr rfl⟩
    simp only [saleStart, hf, if_false]
    simp [ht]

/-- Claim C3.  Whenever the handler answers 201, the request carried all four
fields with a non-zero price `p`, the response reports price `p` and
`total_amount = quantity × p`, and the `sales` table is the previous table with
exactly one row appended, holding the request's item_id, type and quantity,
price `p` and `total_amount = quantity × p`.  The stored-price fallback is thus
never the recorded price. -/
theorem successful_sale_records_supplied_price (env : Env) (db : Db) (req : SaleRequest)
    (h : (postSale env db req).1.status = 201) :
    ∃ (i : Int) (t : String) (q : Int) (p : ℚ) (sale_id units_deducted : Int),
      req = { item_id := some i, type := some t, quantity := some q, price := some p }
      ∧ p ≠ 0
      ∧ (postSale env db req).1 = .created sale_id i t q p ((q : ℚ) * p) units_deducted
      ∧ (postSale env db req).2.sales
          = db.sales ++ [{ id := sale_id, item_id := i, type := t, quantity := q, price := p,
                           total_amount := (q : ℚ) * p, created_at := env.now }] := by
  obtain ⟨oi, ot, oq, op⟩ := req
  cases oi with
  | none => simp [postSale, saleStart, Response.status] at h
  | some i =>
  cases ot with
  | none => simp [postSale, saleStart, Response.status] at h
  | some t =>
  cases oq with
  | none => simp [postSale, saleStart, Response.status] at h
  | some q =>
  cases op with
  | none => simp [postSale, saleStart, Response.status] at h
  | some p =>
  by_cases hv : i ≠ 0 ∧ (t = "unit" ∨ t = "bale") ∧ 0 < q ∧ p ≠ 0
  · obtain ⟨hi, ht, hq, hp⟩ := hv
    cases hget : env.getErr with
    | true =>
      simp [postSale, saleStart_valid db i t q p hi ht hq hp, onGet, hget, Response.status] at h
    | false =>
    cases hitem : db.getItem i with
    | none =>
      have hg : (db.beginTransaction.logged (Stmt.selectItem i)).getItem i = none := hitem
      simp [postSale, saleStart_valid db i t q p hi ht hq hp, onGet, hget, hg,
        Response.status] at h
    | some item =>
    have hg : (db.beginTransaction.logged (Stmt.selectItem i)).getItem i = some item := hitem
    by_cases hs : item.total_units < (if t = "bale" then q * item.units_per_bale else q)
    · simp [postSale, saleStart_valid db i t q p hi ht hq hp, onGet, hget, hg, hs,
        Response.status] at h
    · cases hins : env.insertErr with
      | true =>
        simp [postSale, saleStart_valid db i t q p hi ht hq hp, onGet, hget, hg, hs, onInsert,
          hins, Response.status] at h
      | false =>
      cases hupd : env.updateErr with
      | true =>
        simp [postSale, saleStart_valid db i t q p hi ht hq hp, onGet, hget, hg, hs, onInsert,
          hins, onUpdate, hupd, Response.status] at h
      | false =>
        have e := postSale_success env db i t q p item hi ht hq hp hget hins hupd hitem
          (not_lt.mp hs)
        refine ⟨i, t, q, p, nextSaleId db.sales,
          (if t = "bale" then q * item.units_per_bale else q), rfl, hp, ?_, ?_⟩
        · rw [e]
        · rw [e]; rfl
  · obtain ⟨r, hr, hst, _⟩ := saleStart_invalid_of_not db i t q p hv
    simp [postSale, hr, hst] at h

/-- Claim C4.  If `item_id`, `type`, `quantity` or `price` is missing, or the
quantity is at most 0, or the type is neither `unit` nor `bale`, the handler
answers a validation error, status 400, in its synchronous part; the
connection is exactly as before: no statement was executed, so no transaction
was begun, and items and sales are unchanged. -/
theorem invalid_request_rejected (env : Env) (db : Db) (req : SaleRequest)
    (h : req.item_id = none ∨ req.type = none ∨ req.quantity = none ∨ req.price = none
      ∨ (∃ q, req.quantity = some q ∧ q ≤ 0)
      ∨ (∃ t, req.type = some t ∧ t ≠ "unit" ∧ t ≠ "bale")) :
    (postSale env db req).1.status = 400
      ∧ ((postSale env db req).1 = .invalidFields ∨ (postSale env db req).1 = .invalidType)
      ∧ (postSale env db req).2 = db
      ∧ saleStart db req = (.inl (postSale env db req).1, db) := by
  obtain ⟨oi, ot, oq, op⟩ := req
  cases oi with
  | none => simp [postSale, saleStart, Response.status]
  | some i =>
  cases ot with
  | none => simp [postSale, saleStart, Response.status]
  | some t =>
  cases oq with
  | none => simp [postSale, saleStart, Response.status]
  | some q =>
  cases op with
  | none => simp [postSale, saleStart, Response.status]
  | some p =>
  have hv : ¬ (i ≠ 0 ∧ (t = "unit" ∨ t = "bale") ∧ 0 < q ∧ p ≠ 0) := by
    rintro ⟨_, ht, hq, _⟩
    simp only [reduceCtorEq, false_or, Option.some.injEq, exists_eq_left'] at h
    rcases h with h | h
    · omega
    · rcases ht with ht | ht
      · exact h.1 ht
      · exact h.2 ht
  obtain ⟨r, hr, hst, hk⟩ := saleStart_invalid_of_not db i t q p hv
  have e : postSale env db
      { item_id := some i, type := some t, quantity := some q, price := some p } = (r, db) := by
    simp [postSale, hr]
  rw [e]
  exact ⟨hst, hk, rfl, hr⟩

/-- Claim C5.  A request that passes validation but whose `item_id` matches no
item is answered 404 `Item not found`; the `sales` and `items` tables are
unchanged.  The store answers the `SELECT` without error and no transaction is
open when the request arrives. -/
theorem missing_item_not_found (env : Env) (db : Db) (i : Int) (t : String) (q : Int) (p : ℚ)
    (hi : i ≠ 0) (ht : t = "unit" ∨ t = "bale") (hq : 0 < q) (hp : p ≠ 0)
    (hget : env.getErr = false) (htxn : db.txn = none)
    (hitem : db.getItem i = none) :
    ∃ db2 : Db,
      postSale env db { item_id := some i, type := some t, quantity := some q, price := some p }
        = (.itemNotFound, db2)
      ∧ Response.itemNotFound.status = 404
      ∧ db2.sales = db.sales ∧ db2.items = db.items := by
  have hg : (db.beginTransaction.logged (Stmt.selectItem i)).getItem i = none := hitem
  refine ⟨(db.beginTransaction.logged (Stmt.selectItem i)).rollback, ?_, rfl, ?_, ?_⟩
  · simp only [postSale, saleStart_valid db i t q p hi ht hq hp, onGet, hget, hg]
    simp
  · simp [Db.rollback, Db.beginTransaction, Db.logged, htxn]
  · simp [Db.rollback, Db.beginTransaction, Db.logged, htxn]

/-- Claim C6.  When the transaction has begun and the stock check has passed, a
failing `INSERT` or a failing `UPDATE` makes the handler roll back and answer
500 (`Failed to record sale` when the insert fails, `Failed to update stock`
otherwise): the last statement is `ROLLBACK`, no transaction stays open, and
the `sales` and `items` tables are those found at the start, so neither a sale
row without its decrement nor a decrement without its sale row remains. -/
theorem failed_write_rolls_back (env : Env) (db : Db) (i : Int) (t : String) (q : Int) (p : ℚ)
    (item : Item)
    (hi : i ≠ 0) (ht : t = "unit" ∨ t = "bale") (hq : 0 < q) (hp : p ≠ 0)
    (hget : env.getErr = false) (htxn : db.txn = none)
    (hitem : db.getItem i = some item)
    (hstock : (if t = "bale" then q * item.units_per_bale else q) ≤ item.total_units)
    (hfail : env.insertErr = true ∨ env.updateErr = true) :
    ∃ (r : Response) (db2 : Db),
      postSale env db { item_id := some i, type := some t, quantity := some q, price := some p }
        = (r, db2)
      ∧ r.status = 500
      ∧ (r = .recordFailed ↔ env.insertErr = true)
      ∧ (r = .updateFailed ↔ env.insertErr = false)
      ∧ db2.sales = db.sales ∧ db2.items = db.items ∧ db2.txn = none
      ∧ db2.log.getLast? = some Stmt.rollback := by
  have hg : (db.beginTransaction.logged (Stmt.selectItem i)).getItem i = some item := hitem
  have hs : ¬ item.total_units < (if t = "bale" then q * item.units_per_bale else q) := by omega
  cases hins : env.insertErr with
  | true =>
    refine ⟨.recordFailed,
      ((db.beginTransaction.logged (Stmt.selectItem i)).logged
        (Stmt.insertSale i t q p ((q : ℚ) * p))).rollback,
      ?_, rfl, by simp, by simp, ?_, ?_, ?_, ?_⟩
    · simp only [postSale, saleStart_valid db i t q p hi ht hq hp, onGet, hget, hg]
      simp only [hs, if_false, onInsert, hins, if_true]
      simp [hp]
    all_goals simp [Db.rollback, Db.beginTransaction, Db.logged, htxn]
  | false =>
    have hupd : env.updateErr = true := by
      rcases hfail with h | h
      · rw [hins] at h; exact absurd h (by decide)
      · exact h
    refine ⟨.updateFailed,
      ((((db.beginTransaction.logged (Stmt.selectItem i)).insertSale env.now i t q p
        ((q : ℚ) * p)).1).logged
        (Stmt.updateStock (if t = "bale" then q * item.units_per_bale else q) i)).rollback,
      ?_, rfl, by simp, by simp, ?_, ?_, ?_, ?_⟩
    · simp only [postSale, saleStart_valid db i t q p hi ht hq hp, onGet, hget, hg]
      simp only [hs, if_false, onInsert, hins, onUpdate, hupd, if_true]
      simp [hp]
    all_goals simp [Db.rollback, Db.beginTransaction, Db.logged, Db.insertSale, htxn]

/-! ## Two requests at once, and the calculators -/

/-- A run of the sales handler started with no transaction open appends to the
log a list of statements in which no `BEGIN TRANSACTION`, `ROLLBACK` or
`COMMIT` fails: the process does not end. -/
theorem postSale_observes_failures (env : Env) (db : Db) (req : SaleRequest)
    (htxn : db.txn = none) :
    ∃ stmts : List Stmt,
      (postSale env db req).2.log = db.log ++ stmts
      ∧ unobservedFailure false stmts = false := by
  obtain ⟨oi, ot, oq, op⟩ := req
  cases oi with
  | none => exact ⟨[], by simp [postSale, saleStart], rfl⟩
  | some i =>
  cases ot with
  | none => exact ⟨[], by simp [postSale, saleStart], rfl⟩
  | some t =>
  cases oq with
  | none => exact ⟨[], by simp [postSale, saleStart], rfl⟩
  | some q =>
  cases op with
  | none => exact ⟨[], by simp [postSale, saleStart], rfl⟩
  | some p =>
  by_cases hv : i ≠ 0 ∧ (t = "unit" ∨ t = "bale") ∧ 0 < q ∧ p ≠ 0
  · obtain ⟨hi, ht, hq, hp⟩ := hv
    cases hget : env.getErr with
    | true =>
      refine ⟨[.beginTransaction, .selectItem i, .rollback], ?_, rfl⟩
      simp only [postSale, saleStart_valid db i t q p hi ht hq hp, onGet, hget, if_true]
      simp [Db.rollback, Db.beginTransaction, Db.logged, htxn]
    | false =>
    cases hitem : db.getItem i with
    | none =>
      have hg : (db.beginTransaction.logged (Stmt.selectItem i)).getItem i = none := hitem
      refine ⟨[.beginTransaction, .selectItem i, .rollback], ?_, rfl⟩
      simp only [postSale, saleStart_valid db i t q p hi ht hq hp, onGet, hget, hg]
      simp [Db.rollback, Db.beginTransaction, Db.logged, htxn]
    | some item =>
    have hg : (db.beginTransaction.logged (Stmt.selectItem i)).getItem i = some item := hitem
    by_cases hs : item.total_units < (if t = "bale" then q * item.units_per_bale else q)
    · refine ⟨[.beginTransaction, .selectItem i, .rollback], ?_, rfl⟩
      simp only [postSale, saleStart_valid db i t q p hi ht hq hp, onGet, hget, hg]
      simp [hs, Db.rollback, Db.beginTransaction, Db.logged, htxn]
    · cases hins : env.insertErr with
      | true =>
        refine ⟨[.beginTransaction, .selectItem i, .insertSale i t q p ((q : ℚ) * p),
          .rollback], ?_, rfl⟩
        simp only [postSale, saleStart_valid db i t q p hi ht hq hp, onGet, hget, hg]
        simp only [hs, if_false, onInsert, hins, if_true]
        simp [hp, Db.rollback, Db.beginTransaction, Db.logged, htxn]
      | false =>
      cases hupd : env.updateErr with
      | true =>
        refine ⟨[.beginTransaction, .selectItem i, .insertSale i t q p ((q : ℚ) * p),
          .updateStock (if t = "bale" then q * item.units_per_bale else q) i,
          .rollback], ?_, rfl⟩
        simp only [postSale, saleStart_valid db i t q p hi ht hq hp, onGet, hget, hg]
        simp only [hs, if_false, onInsert, hins, onUpdate, hupd, if_true]
        simp [hp, Db.rollback, Db.beginTransaction, Db.logged, Db.insertSale, htxn]
      | false =>
        refine ⟨[.beginTransaction, .selectItem i, .insertSale i t q p ((q : ℚ) * p),
          .updateStock (if t = "bale" then q * item.units_per_bale else q) i,
          .commit], ?_, rfl⟩
        rw [postSale_success env db i t q p item hi ht hq hp hget hins hupd hitem
          (not_lt.mp hs)]
        simp [Db.commit, Db.updateStock, Db.beginTransaction, Db.logged, Db.insertSale]
  · obtain ⟨r, hr, _, _⟩ := saleStart_invalid_of_not db i t q p hv
    exact ⟨[], by simp [postSale, hr], rfl⟩

/-- A process that has ended stays ended. -/
theorem runSchedule_ended (env : Env) (items : List Item) (sales : List Sale) (a b : Proc)
    (schedule : List Bool) :
    runSchedule env (.ended items sales a b) schedule = .ended items sales a b := by
  induction schedule with
  | nil => rfl
  | cons who rest ih => exact ih

/-- A schedule run in two parts. -/
theorem runSchedule_append (env : Env) (start : Loop) (first rest : List Bool) :
    runSchedule env start (first ++ rest) = runSchedule env (runSchedule env start first) rest := by
  simp [runSchedule, List.foldl_append]

/-- Claim C7, evaluated on two requests for 3 units each of an item holding 5
units.  Each request alone is answered 201.  If the second handler starts
while the transaction of the first is open (after the first handler, after
its `SELECT` callback, or after its `INSERT` callback), then whatever the rest
of the schedule, its `BEGIN TRANSACTION` fails with no callback and the process
ends: neither request is answered, so no sale succeeds and nobody receives the
insufficient-stock error; the tables on disk are those from before, with 5
units and no sale row.  Only when the first request has been answered before
the second starts is one sale answered 201 and the other refused with
`available = 2`, `requested = 3`. -/
theorem overlapping_sales_end_process :
    (postSale quietEnv (sampleDb 3 4 5) (sampleRequest "unit" 3)).1.status = 201
    ∧ (∀ rest : List Bool,
        runSchedule quietEnv
            (.running (sampleDb 3 4 5) (.arriving (sampleRequest "unit" 3))
              (.arriving (sampleRequest "unit" 3)))
            (false :: true :: rest)
          = .ended [sampleItem 3 4 5] []
              (.awaitGet { item_id := 1, type := "unit", quantity := 3, price := 12 })
              (.awaitGet { item_id := 1, type := "unit", quantity := 3, price := 12 }))
    ∧ (∀ rest : List Bool, ∃ a b : Proc,
        runSchedule quietEnv
            (.running (sampleDb 3 4 5) (.arriving (sampleRequest "unit" 3))
              (.arriving (sampleRequest "unit" 3)))
            ([false, false, true] ++ rest)
          = .ended [sampleItem 3 4 5] [] a b
        ∧ (∀ r : Response, a ≠ .responded r) ∧ (∀ r : Response, b ≠ .responded r))
    ∧ (∀ rest : List Bool, ∃ a b : Proc,
        runSchedule quietEnv
            (.running (sampleDb 3 4 5) (.arriving (sampleRequest "unit" 3))
              (.arriving (sampleRequest "unit" 3)))
            ([false, false, false, true] ++ rest)
          = .ended [sampleItem 3 4 5] [] a b
        ∧ (∀ r : Response, a ≠ .responded r) ∧ (∀ r : Response, b ≠ .responded r))
    ∧ (∃ db2 : Db,
        runSchedule quietEnv
            (.running (sampleDb 3 4 5) (.arriving (sampleRequest "unit" 3))
              (.arriving (sampleRequest "unit" 3)))
            [false, false, false, false, true, true]
          = .running db2
              (.responded (.created 1 1 "unit" 3 12 ((3 : ℚ) * 12) 3))
              (.responded (.insufficientStock 2 3))
        ∧ db2.totalUnits 1 = some 2 ∧ db2.sales.length = 1) := by
  refine ⟨by decide, ?_, ?_, ?_, ⟨_, rfl, rfl, rfl⟩⟩
  · intro rest
    exact runSchedule_ended quietEnv _ _ _ _ rest
  · intro rest
    obtain ⟨a, b, h, ha, hb⟩ : ∃ a b : Proc,
        runSchedule quietEnv
            (.running (sampleDb 3 4 5) (.arriving (sampleRequest "unit" 3))
              (.arriving (sampleRequest "unit" 3)))
            [false, false, true]
          = .ended [sampleItem 3 4 5] [] a b
        ∧ (∀ r : Response, a ≠ .responded r) ∧ (∀ r : Response, b ≠ .responded r) :=
      ⟨_, _, rfl, fun r h => Proc.noConfusion h, fun r h => Proc.noConfusion h⟩
    exact ⟨a, b, by rw [runSchedule_append, h, runSchedule_ended], ha, hb⟩
  · intro rest
    obtain ⟨a, b, h, ha, hb⟩ : ∃ a b : Proc,
        runSchedule quietEnv
            (.running (sampleDb 3 4 5) (.arriving (sampleRequest "unit" 3))
              (.arriving (sampleRequest "unit" 3)))
            [false, false, false, true]
          = .ended [sampleItem 3 4 5] [] a b
        ∧ (∀ r : Response, a ≠ .responded r) ∧ (∀ r : Response, b ≠ .responded r) :=
      ⟨_, _, rfl, fun r h => Proc.noConfusion h, fun r h => Proc.noConfusion h⟩
    exact ⟨a, b, by rw [runSchedule_append, h, runSchedule_ended], ha, hb⟩

/-- The digits written by `toFixed1` are those of an integer number of tenths
within one half of `|x| * 10`. -/
theorem toFixed1_nearest (x : ℚ) :
    ∃ n : ℕ, |(n : ℚ) - |x| * 10| ≤ 1 / 2
      ∧ toFixed1 x
          = (if x < 0 then "-" else "") ++ toString (n / 10) ++ "." ++ toString (n % 10) := by
  refine ⟨(Int.floor (|x| * 10 + 1 / 2)).toNat, ?_, rfl⟩
  have hy : (0 : ℚ) ≤ |x| * 10 + 1 / 2 := by positivity
  have hfl : 0 ≤ Int.floor (|x| * 10 + 1 / 2) := Int.floor_nonneg.mpr hy
  have hcast : (((Int.floor (|x| * 10 + 1 / 2)).toNat : ℕ) : ℚ)
      = ((Int.floor (|x| * 10 + 1 / 2) : ℤ) : ℚ) := by
    have := Int.toNat_of_nonneg hfl
    exact_mod_cast congrArg (fun z : ℤ => (z : ℚ)) this
  rw [hcast]
  have h1 := Int.floor_le (|x| * 10 + 1 / 2)
  have h2 := Int.lt_floor_add_one (|x| * 10 + 1 / 2)
  rw [abs_le]
  constructor <;> linarith

/-- Claim C8.  With `capacity = bales_count × units_per_bale`: when
`capacity ≤ 0` the result is `unknown`, `gray`, `0.0`; when `capacity > 0` the
result is `strong`, `blue` if `total_units / capacity ≥ 0.8` and `weak`,
`orange` if `total_units / capacity < 0.8`; a ratio of exactly 0.8
(`5 × total_units = 4 × capacity`) is `strong`, as for 4 units out of 5. -/
theorem calculateHealth_status (t b u : Int) :
    (b * u ≤ 0 →
        calculateHealth t b u = { status := "unknown", color := "gray", percentage := some "0.0" })
    ∧ (0 < b * u → (t : ℚ) / ((b * u : Int) : ℚ) ≥ 0.8 →
        (calculateHealth t b u).status = "strong" ∧ (calculateHealth t b u).color = "blue")
    ∧ (0 < b * u → (t : ℚ) / ((b * u : Int) : ℚ) < 0.8 →
        (calculateHealth t b u).status = "weak" ∧ (calculateHealth t b u).color = "orange")
    ∧ (0 < b * u → 5 * t = 4 * (b * u) → (calculateHealth t b u).status = "strong")
    ∧ (calculateHealth 4 1 5).status = "strong" := by
  refine ⟨?_, ?_, ?_, ?_, ?_⟩
  · intro h
    simp [calculateHealth, h]
  · intro h hr
    have h0 : ¬ b * u ≤ 0 := by omega
    simp only [calculateHealth, h0, if_false]
    rw [if_pos hr]
    exact ⟨rfl, rfl⟩
  · intro h hr
    have h0 : ¬ b * u ≤ 0 := by omega
    have hr2 : ¬ (t : ℚ) / ((b * u : Int) : ℚ) ≥ 0.8 := not_le.mpr hr
    simp only [calculateHealth, h0, if_false]
    rw [if_neg hr2]
    exact ⟨rfl, rfl⟩
  · intro h he
    have h0 : ¬ b * u ≤ 0 := by omega
    have hc : (0 : ℚ) < ((b * u : Int) : ℚ) := by exact_mod_cast h
    have hr : (t : ℚ) / ((b * u : Int) : ℚ) ≥ 0.8 := by
      rw [ge_iff_le, le_div_iff₀ hc]
      have : (5 : ℚ) * (t : ℚ) = 4 * ((b : ℚ) * (u : ℚ)) := by exact_mod_cast he
      norm_num
      linarith
    simp only [calculateHealth, h0, if_false]
    rw [if_pos hr]
  · norm_num [calculateHealth]

/-- Claim C9, evaluated on two rows.  For the row with `bales_count = 0` the
route attaches no `health_percentage`, where `calculateHealth` gives `0.0`; for
the row with `bales_count = -1`, `units_per_bale = 2`, `total_units = 5` the
route attaches `weak`, `orange`, where `calculateHealth` gives `unknown`,
`gray`. -/
theorem enrich_health_diverges :
    (enrich (sampleItem 0 3 5)).health_percentage = none
    ∧ (calculateHealth 5 0 3).percentage = some "0.0"
    ∧ (enrich (sampleItem (-1) 2 5)).health_status = "weak"
    ∧ (enrich (sampleItem (-1) 2 5)).health_color = "orange"
    ∧ (calculateHealth 5 (-1) 2).status = "unknown"
    ∧ (calculateHealth 5 (-1) 2).color = "gray" := by
  refine ⟨by decide, by decide, ?_, ?_, by decide, by decide⟩
  · norm_num [enrich, getHealth, sampleItem]
  · norm_num [enrich, getHealth, sampleItem]

/-- On positive capacity the route's `getHealth` and `calculateHealth` return
the same object. -/
theorem getHealth_eq_calculateHealth_of_pos (t b u : Int) (h : 0 < b * u) :
    getHealth t b u = calculateHealth t b u := by
  have h0 : ¬ b * u ≤ 0 := by omega
  have h1 : ¬ b * u = 0 := by omega
  simp only [getHealth, calculateHealth, h0, h1, if_false]
  split <;> rfl

/-- Rounding to the nearest integer moves a number by at most one half. -/
theorem roundHalfEven_error (q : ℚ) : |((roundHalfEven q : ℤ) : ℚ) - q| ≤ 1 / 2 := by
  have h1 := Int.floor_le q
  have h2 := Int.lt_floor_add_one q
  unfold roundHalfEven
  simp only
  split_ifs with a b c
  · rw [abs_le]; constructor <;> linarith
  · push_cast; rw [abs_le]; constructor <;> linarith
  · rw [abs_le]; constructor <;> linarith
  · push_cast; rw [abs_le]; constructor <;> linarith

/-- An integer closer than one half to `q` is the one `q` rounds to. -/
theorem roundHalfEven_eq_of (q : ℚ) (n : ℤ) (h : |q - (n : ℚ)| < 1 / 2) :
    roundHalfEven q = n := by
  rw [abs_lt] at h
  obtain ⟨h1, h2⟩ := h
  by_cases hc : (n : ℚ) ≤ q
  · have hf : Int.floor q = n := by
      rw [Int.floor_eq_iff]; constructor <;> linarith
    unfold roundHalfEven
    simp only [hf]
    rw [if_pos (by linarith)]
  · have hf : Int.floor q = n - 1 := by
      rw [Int.floor_eq_iff]; push_cast; constructor <;> linarith
    unfold roundHalfEven
    simp only [hf]
    push_cast
    rw [if_neg (by linarith), if_pos (by linarith)]
    ring

/-- Rounding to a double changes a number by at most `2^-53` of its size. -/
theorem roundDouble_error (x : ℚ) : |roundDouble x - x| ≤ |x| / 2 ^ 53 := by
  unfold roundDouble
  split_ifs with h0
  · simp [h0]
  · simp only
    have hx : 0 < |x| := abs_pos.mpr h0
    set e : ℤ := Int.log 2 |x| - 52 with he
    have hp : (0 : ℚ) < (2 : ℚ) ^ e := by positivity
    have hr := roundHalfEven_error (x / (2 : ℚ) ^ e)
    have hlog : (2 : ℚ) ^ (Int.log 2 |x|) ≤ |x| := by
      have := Int.zpow_log_le_self (b := 2) (r := |x|) (by norm_num) hx
      exact_mod_cast this
    have hsplit : (2 : ℚ) ^ (Int.log 2 |x|) = (2 : ℚ) ^ e * 2 ^ 52 := by
      rw [he, zpow_sub₀ (two_ne_zero), zpow_ofNat, div_mul_cancel₀]
      positivity
    have key : ((roundHalfEven (x / (2 : ℚ) ^ e) : ℤ) : ℚ) * (2 : ℚ) ^ e - x
        = (((roundHalfEven (x / (2 : ℚ) ^ e) : ℤ) : ℚ) - x / (2 : ℚ) ^ e) * (2 : ℚ) ^ e := by
      field_simp
    rw [key, abs_mul, abs_of_pos hp]
    calc |((roundHalfEven (x / (2 : ℚ) ^ e) : ℤ) : ℚ) - x / (2 : ℚ) ^ e| * (2 : ℚ) ^ e
        ≤ 1 / 2 * (2 : ℚ) ^ e := by gcongr
      _ = (2 : ℚ) ^ e * 2 ^ 52 / 2 ^ 53 := by ring
      _ ≤ |x| / 2 ^ 53 := by
          rw [← hsplit]
          gcongr

/-- The double of a positive `x` with `2^k ≤ x < 2^(k+1)` is `n × 2^(k-52)` for
the integer `n` nearest to `x / 2^(k-52)`. -/
theorem roundDouble_eq_of (x : ℚ) (k n : ℤ) (h0 : 0 < x) (h1 : (2 : ℚ) ^ k ≤ x)
    (h2 : x < (2 : ℚ) ^ (k + 1))
    (h3 : |x / (2 : ℚ) ^ (k - 52) - (n : ℚ)| < 1 / 2) :
    roundDouble x = (n : ℚ) * (2 : ℚ) ^ (k - 52) := by
  have hx : 0 < |x| := abs_pos.mpr h0.ne'
  have ha : |x| = x := abs_of_pos h0
  have hlog : Int.log 2 |x| = k := by
    rw [ha]
    apply le_antisymm
    · have : Int.log 2 x < k + 1 := by
        rw [← Int.lt_zpow_iff_log_lt (by norm_num) h0]
        exact_mod_cast h2
      omega
    · rw [← Int.zpow_le_iff_le_log (by norm_num) h0]
      exact_mod_cast h1
  unfold roundDouble
  rw [if_neg h0.ne']
  simp only [hlog]
  rw [roundHalfEven_eq_of _ n h3]

/-- The three rounded operations of the margin stay within `2^-51` of the size
of the exact quotient `(s − l) / l × 100`. -/
theorem margin_double_error (s l : ℚ) (hl : 0 < l) :
    |roundDouble (roundDouble (roundDouble (s - l) / l) * 100) - (s - l) / l * 100|
      ≤ |(s - l) / l * 100| / 2 ^ 51 := by
  have h1 := roundDouble_error (s - l)
  have h2 := roundDouble_error (roundDouble (s - l) / l)
  have h3 := roundDouble_error (roundDouble (roundDouble (s - l) / l) * 100)
  set A := s - l with hA
  set a := roundDouble A with ha
  set b := roundDouble (a / l) with hb
  set d := roundDouble (b * 100) with hd
  set X := |A| / l with hX
  have hX0 : 0 ≤ X := div_nonneg (abs_nonneg _) hl.le
  have hm : |A / l * 100| = X * 100 := by
    rw [abs_mul, abs_div, abs_of_pos hl, abs_of_pos (by norm_num : (0 : ℚ) < 100)]
  have hq : |a / l - A / l| ≤ X / 2 ^ 53 := by
    have : a / l - A / l = (a - A) / l := by ring
    rw [this, abs_div, abs_of_pos hl, hX, div_right_comm]
    exact div_le_div_of_nonneg_right h1 hl.le
  have hq2 : |a / l| ≤ X + X / 2 ^ 53 := by
    have := abs_sub_abs_le_abs_sub (a / l) (A / l)
    have hAl : |A / l| = X := by rw [abs_div, abs_of_pos hl]
    linarith
  have hb1 : |b - A / l| ≤ |a / l| / 2 ^ 53 + X / 2 ^ 53 := by
    have := abs_sub_le b (a / l) (A / l)
    linarith
  have hb2 : |b| ≤ |a / l| + |a / l| / 2 ^ 53 := by
    have := abs_sub_abs_le_abs_sub b (a / l)
    linarith
  have hp : |b * 100| = |b| * 100 := by
    rw [abs_mul, abs_of_pos (by norm_num : (0 : ℚ) < 100)]
  have hpm : |b * 100 - A / l * 100| = |b - A / l| * 100 := by
    have : b * 100 - A / l * 100 = (b - A / l) * 100 := by ring
    rw [this, abs_mul, abs_of_pos (by norm_num : (0 : ℚ) < 100)]
  have htri := abs_sub_le d (b * 100) (A / l * 100)
  rw [hm]
  rw [hp] at h3
  rw [hpm] at htri
  have hqn : 0 ≤ |a / l| := abs_nonneg _
  norm_num at h3 hb1 hb2 hq2 htri ⊢
  linarith

/-- The double of `23 / 80` is `5179139571476070 / 2^54`, just below 0.2875. -/
theorem roundDouble_23_80 : roundDouble (23 / 80) = 5179139571476070 / 2 ^ 54 := by
  rw [roundDouble_eq_of (23/80) (-2) 5179139571476070 (by norm_num) (by norm_num)
    (by norm_num) (by norm_num [abs_lt])]
  norm_num

/-- The double of `23 / 80` times 100 gives the double `8092405580431359 / 2^48`,
that is `28.749999999999996...`. -/
theorem roundDouble_23_80_times_100 :
    roundDouble (roundDouble (23 / 80) * 100) = 8092405580431359 / 2 ^ 48 := by
  rw [roundDouble_23_80,
    roundDouble_eq_of (5179139571476070 / 2 ^ 54 * 100) 4 8092405580431359 (by norm_num)
      (by norm_num) (by norm_num) (by norm_num [abs_lt])]
  norm_num

/-- The double the code computes for selling price 103 and landing price 80:
`8092405580431359 / 2^48`. -/
theorem margin_double_103_80 :
    roundDouble (roundDouble (roundDouble (103 - 80) / 80) * 100)
      = 8092405580431359 / 2 ^ 48 := by
  have e1 : roundDouble (103 - 80) = 23 := by
    rw [roundDouble_eq_of (103 - 80) 4 (23 * 2 ^ 48) (by norm_num) (by norm_num) (by norm_num)
      (by norm_num [abs_lt])]
    norm_num
  rw [e1, roundDouble_23_80_times_100]

/-- For `x ≥ 0` the text of `toFixed1 x` is that of the whole number `n` of
tenths with `n ≤ x × 10 + 1/2 < n + 1`. -/
theorem toFixed1_eq_of (x : ℚ) (n : ℕ) (hx : 0 ≤ x) (h1 : (n : ℚ) ≤ x * 10 + 1 / 2)
    (h2 : x * 10 + 1 / 2 < (n : ℚ) + 1) :
    toFixed1 x = toString (n / 10) ++ "." ++ toString (n % 10) := by
  have hf : Int.floor (|x| * 10 + 1 / 2) = (n : ℤ) := by
    rw [abs_of_nonneg hx, Int.floor_eq_iff]
    push_cast
    exact ⟨h1, h2⟩
  have hlt : ¬ x < 0 := not_lt.mpr hx
  simp only [toFixed1, hf, Int.toNat_ofNat, hlt, if_false]
  rfl

/-- With 23 units out of 8 bales of 10 both health helpers render the
percentage `28.7`, from the double just below 28.75. -/
theorem health_percentage_23_of_80 :
    (calculateHealth 23 8 10).percentage = some "28.7"
    ∧ (getHealth 23 8 10).percentage = some "28.7" := by
  have hc : ¬ ((8 : Int) * 10 ≤ 0) := by decide
  have hc2 : ¬ ((8 : Int) * 10 = 0) := by decide
  have hq : ((23 : Int) : ℚ) / (((8 : Int) * 10 : Int) : ℚ) = 23 / 80 := by norm_num
  have ht : toFixed1 (roundDouble (roundDouble (23 / 80) * 100)) = "28.7" := by
    rw [roundDouble_23_80_times_100,
      toFixed1_eq_of _ 287 (by norm_num) (by norm_num) (by norm_num)]
    decide
  constructor
  · simp only [calculateHealth, hc, if_false, hq, ht]
    split <;> rfl
  · simp only [getHealth, hc2, if_false, hq, ht]

/-- Claim C10 as stated fails for selling price 103 and landing price 80: the
landing price is positive and `(103 − 80) / 80 × 100` is 28.75, which rendered
to one decimal place by `toFixed(1)` is `28.8`; the function returns `28.7`,
the rendering of the double `28.749999999999996` its three operations give. -/
theorem calculateProfitMargin_not_exact :
    (0 : ℚ) < 80
    ∧ ((103 : ℚ) - 80) / 80 * 100 = 28.75
    ∧ toFixed1 (((103 : ℚ) - 80) / 80 * 100) = "28.8"
    ∧ calculateProfitMargin 103 80 = "28.7"
    ∧ calculateProfitMargin 103 80 ≠ toFixed1 (((103 : ℚ) - 80) / 80 * 100) := by
  have h1 : toFixed1 (((103 : ℚ) - 80) / 80 * 100) = "28.8" := by
    rw [toFixed1_eq_of _ 288 (by norm_num) (by norm_num) (by norm_num)]
    decide
  have h2 : calculateProfitMargin 103 80 = "28.7" := by
    have h : ¬ ((80 : ℚ) ≤ 0) := by norm_num
    simp only [calculateProfitMargin, h, if_false]
    rw [margin_double_103_80,
      toFixed1_eq_of _ 287 (by norm_num) (by norm_num) (by norm_num)]
    decide
  refine ⟨by norm_num, by norm_num, h1, h2, ?_⟩
  rw [h1, h2]
  decide

/-- Claim C10, amended.  For `landing_price ≤ 0` the result is the string `0.0`,
whatever the selling price.  For `landing_price > 0` the result is the
`toFixed(1)` rendering of the double `d` that the subtraction, the division
and the multiplication by 100 give in turn: `d` is within `2^-51` of the size
of the exact quotient `(selling_price − landing_price) / landing_price × 100`,
and the text is an optional minus sign and the digits of a whole number of
tenths within half a tenth of `|d|`. -/
theorem calculateProfitMargin_double (s l : ℚ) :
    (l ≤ 0 → calculateProfitMargin s l = "0.0")
    ∧ (0 < l → ∃ (d : ℚ) (n : ℕ),
        d = roundDouble (roundDouble (roundDouble (s - l) / l) * 100)
        ∧ |d - (s - l) / l * 100| ≤ |(s - l) / l * 100| / 2 ^ 51
        ∧ |(n : ℚ) - |d| * 10| ≤ 1 / 2
        ∧ calculateProfitMargin s l
          = (if d < 0 then "-" else "") ++ toString (n / 10) ++ "." ++ toString (n % 10)) := by
  refine ⟨?_, ?_⟩
  · intro h
    simp [calculateProfitMargin, h]
  · intro h
    obtain ⟨n, hn, hs⟩ :=
      toFixed1_nearest (roundDouble (roundDouble (roundDouble (s - l) / l) * 100))
    refine ⟨_, n, rfl, margin_double_error s l h, hn, ?_⟩
    rw [← hs]
    simp [calculateProfitMargin, not_le.mpr h]

/-! ## Instances -/

/-- Selling 2 bales of 4 units from 5 units in stock is rejected with
`available = 5`, `requested = 8`. -/
theorem insufficient_stock_rejected_witness :
    ∃ db2 : Db,
      postSale quietEnv (sampleDb 3 4 5) (sampleRequest "bale" 2)
        = (.insufficientStock 5 8, db2)
      ∧ (Response.insufficientStock 5 8).status = 400
      ∧ db2.sales = [] ∧ db2.items = [sampleItem 3 4 5]
      ∧ db2.totalUnits 1 = some 5 :=
  insufficient_stock_rejected quietEnv (sampleDb 3 4 5) 1 "bale" 2 12 (sampleItem 3 4 5)
    (by decide) (by decide) (by decide) (by norm_num) rfl rfl rfl (by decide)

/-- Selling 3 units from 10 units in stock leaves 7. -/
theorem sale_deducts_stock_witness :
    ∃ (db2 : Db) (sale_id : Int) (price total_amount : ℚ),
      postSale quietEnv (sampleDb 3 4 10) (sampleRequest "unit" 3)
        = (.created sale_id 1 "unit" 3 price total_amount 3, db2)
      ∧ db2.totalUnits 1 = some 7 :=
  sale_deducts_stock quietEnv (sampleDb 3 4 10) 1 "unit" 3 12 (sampleItem 3 4 10)
    (by decide) (by decide) (by decide) (by norm_num) rfl rfl rfl rfl (by decide)

/-- The sale of 3 units at price 12 from 10 units in stock is answered 201 and
recorded at the supplied price. -/
theorem successful_sale_records_supplied_price_witness :
    (postSale quietEnv (sampleDb 3 4 10) (sampleRequest "unit" 3)).1.status = 201
    ∧ ∃ (i : Int) (t : String) (q : Int) (p : ℚ) (sale_id units_deducted : Int),
      sampleRequest "unit" 3
        = { item_id := some i, type := some t, quantity := some q, price := some p }
      ∧ p ≠ 0
      ∧ (postSale quietEnv (sampleDb 3 4 10) (sampleRequest "unit" 3)).1
          = .created sale_id i t q p ((q : ℚ) * p) units_deducted
      ∧ (postSale quietEnv (sampleDb 3 4 10) (sampleRequest "unit" 3)).2.sales
          = (sampleDb 3 4 10).sales
            ++ [{ id := sale_id, item_id := i, type := t, quantity := q, price := p,
                  total_amount := (q : ℚ) * p, created_at := quietEnv.now }] :=
  ⟨by decide,
   successful_sale_records_supplied_price quietEnv (sampleDb 3 4 10) (sampleRequest "unit" 3)
     (by decide)⟩

/-- A request for quantity 0 is answered 400 with the connection untouched. -/
theorem invalid_request_rejected_witness :
    (postSale quietEnv (sampleDb 3 4 10) (sampleRequest "unit" 0)).1.status = 400
      ∧ ((postSale quietEnv (sampleDb 3 4 10) (sampleRequest "unit" 0)).1 = .invalidFields
        ∨ (postSale quietEnv (sampleDb 3 4 10) (sampleRequest "unit" 0)).1 = .invalidType)
      ∧ (postSale quietEnv (sampleDb 3 4 10) (sampleRequest "unit" 0)).2 = sampleDb 3 4 10
      ∧ saleStart (sampleDb 3 4 10) (sampleRequest "unit" 0)
          = (.inl (postSale quietEnv (sampleDb 3 4 10) (sampleRequest "unit" 0)).1,
             sampleDb 3 4 10) :=
  invalid_request_rejected quietEnv (sampleDb 3 4 10) (sampleRequest "unit" 0)
    (Or.inr (Or.inr (Or.inr (Or.inr (Or.inl ⟨0, rfl, le_refl 0⟩)))))

/-- A request for item 2, absent from the table, is answered 404. -/
theorem missing_item_not_found_witness :
    ∃ db2 : Db,
      postSale quietEnv (sampleDb 3 4 10)
          { item_id := some 2, type := some "unit", quantity := some 3, price := some 12 }
        = (.itemNotFound, db2)
      ∧ Response.itemNotFound.status = 404
      ∧ db2.sales = (sampleDb 3 4 10).sales ∧ db2.items = (sampleDb 3 4 10).items :=
  missing_item_not_found quietEnv (sampleDb 3 4 10) 2 "unit" 3 12
    (by decide) (by decide) (by decide) (by norm_num) rfl rfl rfl

/-- A failing stock `UPDATE` on the sale of 3 units from 10 is answered 500
and leaves both tables as they were. -/
theorem failed_write_rolls_back_witness :
    ∃ (r : Response) (db2 : Db),
      postSale { now := 7, getErr := false, insertErr := false, updateErr := true }
          (sampleDb 3 4 10) (sampleRequest "unit" 3)
        = (r, db2)
      ∧ r.status = 500
      ∧ (r = .recordFailed ↔ false = true)
      ∧ (r = .updateFailed ↔ false = false)
      ∧ db2.sales = (sampleDb 3 4 10).sales ∧ db2.items = (sampleDb 3 4 10).items
      ∧ db2.txn = none
      ∧ db2.log.getLast? = some Stmt.rollback :=
  failed_write_rolls_back { now := 7, getErr := false, insertErr := false, updateErr := true }
    (sampleDb 3 4 10) 1 "unit" 3 12 (sampleItem 3 4 10)
    (by decide) (by decide) (by decide) (by norm_num) rfl rfl rfl (by decide) (Or.inr rfl)

/-- Zero capacity is `unknown`; 9 of 10 is `strong`; 7 of 10 is `weak`; 8 of 10
is `strong`. -/
theorem calculateHealth_status_witness :
    calculateHealth 7 0 5 = { status := "unknown", color := "gray", percentage := some "0.0" }
    ∧ ((calculateHealth 9 2 5).status = "strong" ∧ (calculateHealth 9 2 5).color = "blue")
    ∧ ((calculateHealth 7 2 5).status = "weak" ∧ (calculateHealth 7 2 5).color = "orange")
    ∧ (calculateHealth 8 2 5).status = "strong" :=
  ⟨(calculateHealth_status 7 0 5).1 (by decide),
   (calculateHealth_status 9 2 5).2.1 (by decide) (by norm_num),
   (calculateHealth_status 7 2 5).2.2.1 (by decide) (by norm_num),
   (calculateHealth_status 8 2 5).2.2.2.1 (by decide) (by decide)⟩

/-- Landing price 0 gives `0.0`; selling at 103 what landed at 80 gives the
rendering of a double within `2^-51` of 28.75. -/
theorem calculateProfitMargin_double_witness :
    calculateProfitMargin 15 0 = "0.0"
    ∧ ∃ (d : ℚ) (n : ℕ),
        d = roundDouble (roundDouble (roundDouble (103 - 80) / 80) * 100)
        ∧ |d - (103 - 80) / 80 * 100| ≤ |((103 : ℚ) - 80) / 80 * 100| / 2 ^ 51
        ∧ |(n : ℚ) - |d| * 10| ≤ 1 / 2
        ∧ calculateProfitMargin 103 80
          = (if d < 0 then "-" else "") ++ toString (n / 10) ++ "." ++ toString (n % 10) :=
  ⟨(calculateProfitMargin_double 15 0).1 (le_refl 0),
   (calculateProfitMargin_double 103 80).2 (by norm_num)⟩

/-! ## Unit price, item creation and item update -/

/-- Claim C11.  For type `bale` the result is `bale_price / units_per_bale` when
`units_per_bale` is not 0 and `bale_price` itself when it is 0; in every case
the divisor used is a non-zero integer.  For any other type the result is
`unit_price` when it is set, and 0 when it is not set or is 0. -/
theorem getEffectiveUnitPrice_spec (item : PricedItem) :
    (∀ n : Int, item.units_per_bale = some n → n ≠ 0 →
        getEffectiveUnitPrice "bale" item = item.bale_price / (n : ℚ))
    ∧ (item.units_per_bale = some 0 → getEffectiveUnitPrice "bale" item = item.bale_price)
    ∧ (∃ d : Int, d ≠ 0 ∧ getEffectiveUnitPrice "bale" item = item.bale_price / (d : ℚ))
    ∧ (∀ (type : String) (p : ℚ), type ≠ "bale" → item.unit_price = some p →
        getEffectiveUnitPrice type item = p)
    ∧ (∀ type : String, type ≠ "bale" → item.unit_price = none ∨ item.unit_price = some 0 →
        getEffectiveUnitPrice type item = 0) := by
  refine ⟨?_, ?_, ?_, ?_, ?_⟩
  · intro n hn h0
    simp [getEffectiveUnitPrice, hn, h0]
  · intro hn
    simp [getEffectiveUnitPrice, hn]
  · cases hn : item.units_per_bale with
    | none => exact ⟨1, by decide, by simp [getEffectiveUnitPrice, hn]⟩
    | some n =>
      by_cases h0 : n = 0
      · exact ⟨1, by decide, by simp [getEffectiveUnitPrice, hn, h0]⟩
      · exact ⟨n, h0, by simp [getEffectiveUnitPrice, hn, h0]⟩
  · intro type p ht hp
    by_cases h0 : p = 0
    · simp [getEffectiveUnitPrice, ht, hp, h0]
    · simp [getEffectiveUnitPrice, ht, hp, h0]
  · intro type ht hp
    rcases hp with hp | hp <;> simp [getEffectiveUnitPrice, ht, hp]

/-- A bale of 4 units at 40 costs `40 / 4` a unit; with `units_per_bale = 0` the
result is 40; a unit price of 12 is returned as such; a missing unit price
gives 0. -/
theorem getEffectiveUnitPrice_spec_witness :
    getEffectiveUnitPrice "bale" { bale_price := 40, units_per_bale := some 4, unit_price := none }
        = 40 / ((4 : Int) : ℚ)
    ∧ getEffectiveUnitPrice "bale"
        { bale_price := 40, units_per_bale := some 0, unit_price := none } = 40
    ∧ getEffectiveUnitPrice "unit"
        { bale_price := 40, units_per_bale := some 4, unit_price := some 12 } = 12
    ∧ getEffectiveUnitPrice "unit"
        { bale_price := 40, units_per_bale := some 4, unit_price := none } = 0 :=
  ⟨(getEffectiveUnitPrice_spec
      { bale_price := 40, units_per_bale := some 4, unit_price := none }).1 4 rfl (by decide),
   (getEffectiveUnitPrice_spec
      { bale_price := 40, units_per_bale := some 0, unit_price := none }).2.1 rfl,
   (getEffectiveUnitPrice_spec
      { bale_price := 40, units_per_bale := some 4, unit_price := some 12 }).2.2.2.1
      "unit" 12 (by decide) rfl,
   (getEffectiveUnitPrice_spec
      { bale_price := 40, units_per_bale := some 4, unit_price := none }).2.2.2.2
      "unit" (by decide) (Or.inl rfl)⟩

/-- Claim C12.  When the `INSERT` of `POST /api/items` goes through
(`subcategory_id` and `name` given, no row of that name in the subcategory, no
storage error), exactly one row is appended; its `total_units` is
`bales_count × units_per_bale`, each taken as 0 when omitted, if the body has
no `total_units`, and the supplied value if it has one. -/
theorem postItem_total_units (env : Env) (items : List Item) (req : NewItemRequest)
    (s : Int) (n : String)
    (hs : req.subcategory_id = some s) (hn : req.name = some n)
    (herr : env.insertErr = false)
    (huniq : ∀ it ∈ items, ¬ (it.subcategory_id = s ∧ it.name = n)) :
    ∃ row : Item,
      postItem env items req = (.created (nextItemId items), items ++ [row])
      ∧ row.id = nextItemId items
      ∧ (req.total_units = none →
          row.total_units = req.bales_count.getD 0 * req.units_per_bale.getD 0)
      ∧ (∀ v : Int, req.total_units = some v → row.total_units = v)
      ∧ row.bales_count = req.bales_count.getD 0
      ∧ row.units_per_bale = req.units_per_bale.getD 0 := by
  have hany : items.any (fun it => it.subcategory_id == s && it.name == n) = false := by
    rw [List.any_eq_false]
    intro it hit
    have := huniq it hit
    simpa using this
  refine ⟨{ id := nextItemId items, subcategory_id := s, name := n,
             bales_count := req.bales_count.getD 0,
             units_per_bale := req.units_per_bale.getD 0,
             total_units :=
               (match req.total_units with
                | some v => v
                | none => req.bales_count.getD 0 * req.units_per_bale.getD 0),
             bale_price := req.bale_price.getD 0, unit_price := req.unit_price.getD 0,
             landing_price := req.landing_price.getD 0,
             selling_price := req.selling_price.getD 0,
             health_status :=
               (getHealth
                 (match req.total_units with
                  | some v => v
                  | none => req.bales_count.getD 0 * req.units_per_bale.getD 0)
                 (req.bales_count.getD 0) (req.units_per_bale.getD 0)).status,
             health_color :=
               (getHealth
                 (match req.total_units with
                  | some v => v
                  | none => req.bales_count.getD 0 * req.units_per_bale.getD 0)
                 (req.bales_count.getD 0) (req.units_per_bale.getD 0)).color,
             created_at := env.now, updated_at := env.now }, ?_, rfl, ?_, ?_, rfl, rfl⟩
  · simp only [postItem, hs, hn, herr, hany]
    simp
  · intro h; simp [h]
  · intro v h; simp [h]

/-- Creating an item with 2 bales of 6 units and no `total_units` stores 12. -/
theorem postItem_total_units_witness :
    ∃ row : Item,
      postItem quietEnv [sampleItem 3 4 5] (sampleNewItem (some 2) (some 6) none)
        = (.created 2, [sampleItem 3 4 5] ++ [row])
      ∧ row.id = 2
      ∧ ((none : Option Int) = none → row.total_units = 12)
      ∧ (∀ v : Int, (none : Option Int) = some v → row.total_units = v)
      ∧ row.bales_count = 2
      ∧ row.units_per_bale = 6 :=
  postItem_total_units quietEnv [sampleItem 3 4 5] (sampleNewItem (some 2) (some 6) none)
    1 "A5" rfl rfl rfl (by decide)

/-- The loop of `PUT /api/items/:id` started from any `fields` and `params`
appends the keys and the values of the recognised entries, in body order. -/
theorem putCollect_foldl {V : Type} (updates : List (String × V)) (ks : List String)
    (vs : List V) :
    updates.foldl
        (fun acc kv =>
          if recognisedFields.contains kv.1 then (acc.1 ++ [kv.1], acc.2 ++ [kv.2]) else acc)
        (ks, vs)
      = (ks ++ (updates.filter (fun kv => recognisedFields.contains kv.1)).map Prod.fst,
         vs ++ (updates.filter (fun kv => recognisedFields.contains kv.1)).map Prod.snd) := by
  induction updates generalizing ks vs with
  | nil => simp
  | cons kv rest ih =>
    simp only [List.foldl_cons, List.filter_cons]
    by_cases h : recognisedFields.contains kv.1 = true
    · simp only [h, if_true, ih, List.map_cons, List.append_assoc, List.singleton_append]
    · simp only [h, if_false, ih]
      simp

/-- After the loop, `fields` holds the recognised keys of the body and `params`
their values. -/
theorem putCollect_eq {V : Type} (updates : List (String × V)) :
    putCollect updates
      = ((updates.filter (fun kv => recognisedFields.contains kv.1)).map Prod.fst,
         (updates.filter (fun kv => recognisedFields.contains kv.1)).map Prod.snd) := by
  simpa [putCollect] using putCollect_foldl updates [] []

/-- A property of the body is defined exactly when its key is among the
entries. -/
theorem lookup_isSome_iff {V : Type} (updates : List (String × V)) (k : String) :
    (updates.lookup k).isSome = true ↔ k ∈ updates.map Prod.fst := by
  induction updates with
  | nil => simp
  | cons kv rest ih =>
    obtain ⟨a, b⟩ := kv
    by_cases h : k = a
    · subst h; simp [List.lookup]
    · have h2 : (k == a) = false := by simpa using h
      simp [List.lookup, h2, ih, h]

/-- The `updated_at` test holds exactly when one of the three stock keys is in
the body. -/
theorem touchesStock_iff {V : Type} (updates : List (String × V)) :
    touchesStock updates = true
      ↔ "bales_count" ∈ updates.map Prod.fst ∨ "units_per_bale" ∈ updates.map Prod.fst
          ∨ "total_units" ∈ updates.map Prod.fst := by
  simp only [touchesStock, Bool.or_eq_true, lookup_isSome_iff, or_assoc]

/-- No fragment is collected exactly when none of the seven recognised keys is
in the body. -/
theorem putItem_noFields_iff {V : Type} (updates : List (String × V)) :
    (putCollect updates).1.length + (if touchesStock updates then 1 else 0) = 0
      ↔ ∀ k ∈ recognisedFields, k ∉ updates.map Prod.fst := by
  rw [putCollect_eq]
  constructor
  · intro h k hk hmem
    have h1 : ((updates.filter (fun kv => recognisedFields.contains kv.1)).map Prod.fst).length
        = 0 := (Nat.add_eq_zero_iff.mp h).1
    rw [List.length_eq_zero, List.map_eq_nil_iff, List.filter_eq_nil_iff] at h1
    obtain ⟨kv, hkv, rfl⟩ := List.mem_map.mp hmem
    exact h1 kv hkv (by simpa using hk)
  · intro h
    have h1 : updates.filter (fun kv => recognisedFields.contains kv.1) = [] := by
      rw [List.filter_eq_nil_iff]
      intro kv hkv hc
      exact h kv.1 (by simpa using hc) (List.mem_map.mpr ⟨kv, hkv, rfl⟩)
    have h2 : touchesStock updates = false := by
      rw [← Bool.not_eq_true, touchesStock_iff]
      rintro (hm | hm | hm)
      · exact h _ (by decide) hm
      · exact h _ (by decide) hm
      · exact h _ (by decide) hm
    rw [h1, h2]
    rfl

/-- A JSON number with denominator 1 is the integer that is its numerator. -/
theorem asInteger_of_den (v : ℚ) (h : v.den = 1) :
    asInteger v = some v.num ∧ ((v.num : ℤ) : ℚ) = v := by
  refine ⟨by simp [asInteger, h], ?_⟩
  exact Rat.coe_int_num_of_den_eq_one h

/-- Writing a recognised column gives a row whose cell of that name holds the
bound value, with every other numeric cell, the columns `PUT` never names and
`updated_at` as before; for a count column the value must be an integer. -/
theorem writeCell_spec (it : Item) (k : String) (v : ℚ) (hk : k ∈ recognisedFields)
    (hint : k = "bales_count" ∨ k = "units_per_bale" ∨ k = "total_units" → v.den = 1) :
    ∃ w : Item, writeCell it k v = some w
      ∧ w.cell k = some v
      ∧ (∀ k2 : String, k2 ≠ k → w.cell k2 = it.cell k2)
      ∧ w.sameFixedColumns it ∧ w.updated_at = it.updated_at := by
  simp only [recognisedFields, List.mem_cons, List.mem_singleton, List.not_mem_nil,
    or_false] at hk
  rcases hk with rfl | rfl | rfl | rfl | rfl | rfl | rfl
  · obtain ⟨ha, hv⟩ := asInteger_of_den v (hint (Or.inl rfl))
    refine ⟨{ it with bales_count := v.num }, by simp [writeCell, ha], by simp [Item.cell, hv],
      ?_, ⟨rfl, rfl, rfl, rfl, rfl, rfl⟩, rfl⟩
    intro k2 hk2
    simp [Item.cell, hk2]
  · obtain ⟨ha, hv⟩ := asInteger_of_den v (hint (Or.inr (Or.inl rfl)))
    refine ⟨{ it with units_per_bale := v.num }, by simp [writeCell, ha],
      by simp [Item.cell, hv], ?_, ⟨rfl, rfl, rfl, rfl, rfl, rfl⟩, rfl⟩
    intro k2 hk2
    simp [Item.cell, hk2]
  · obtain ⟨ha, hv⟩ := asInteger_of_den v (hint (Or.inr (Or.inr rfl)))
    refine ⟨{ it with total_units := v.num }, by simp [writeCell, ha],
      by simp [Item.cell, hv], ?_, ⟨rfl, rfl, rfl, rfl, rfl, rfl⟩, rfl⟩
    intro k2 hk2
    simp [Item.cell, hk2]
  · refine ⟨{ it with bale_price := v }, by simp [writeCell], by simp [Item.cell], ?_,
      ⟨rfl, rfl, rfl, rfl, rfl, rfl⟩, rfl⟩
    intro k2 hk2
    simp [Item.cell, hk2]
  · refine ⟨{ it with unit_price := v }, by simp [writeCell], by simp [Item.cell], ?_,
      ⟨rfl, rfl, rfl, rfl, rfl, rfl⟩, rfl⟩
    intro k2 hk2
    simp [Item.cell, hk2]
  · refine ⟨{ it with landing_price := v }, by simp [writeCell], by simp [Item.cell], ?_,
      ⟨rfl, rfl, rfl, rfl, rfl, rfl⟩, rfl⟩
    intro k2 hk2
    simp [Item.cell, hk2]
  · refine ⟨{ it with selling_price := v }, by simp [writeCell], by simp [Item.cell], ?_,
      ⟨rfl, rfl, rfl, rfl, rfl, rfl⟩, rfl⟩
    intro k2 hk2
    simp [Item.cell, hk2]

/-- Agreement on the columns that `PUT` never names passes along a chain of
rows. -/
theorem sameFixedColumns_trans {a b c : Item} (h1 : a.sameFixedColumns b)
    (h2 : b.sameFixedColumns c) : a.sameFixedColumns c := by
  obtain ⟨a1, a2, a3, a4, a5, a6⟩ := h1
  obtain ⟨b1, b2, b3, b4, b5, b6⟩ := h2
  exact ⟨a1.trans b1, a2.trans b2, a3.trans b3, a4.trans b4, a5.trans b5, a6.trans b6⟩

/-- The assignments of a `SET` clause with distinct recognised columns give a
row in which each named cell holds its bound value and everything else is as
before. -/
theorem writeCells_spec (l : List (String × ℚ)) (it : Item)
    (hk : ∀ kv ∈ l, kv.1 ∈ recognisedFields)
    (hint : ∀ kv ∈ l,
      kv.1 = "bales_count" ∨ kv.1 = "units_per_bale" ∨ kv.1 = "total_units" → kv.2.den = 1)
    (hnd : (l.map Prod.fst).Nodup) :
    ∃ w : Item, writeCells it l = some w
      ∧ (∀ kv ∈ l, w.cell kv.1 = some kv.2)
      ∧ (∀ k : String, k ∉ l.map Prod.fst → w.cell k = it.cell k)
      ∧ w.sameFixedColumns it ∧ w.updated_at = it.updated_at := by
  induction l generalizing it with
  | nil => exact ⟨it, rfl, by simp, fun _ _ => rfl, ⟨rfl, rfl, rfl, rfl, rfl, rfl⟩, rfl⟩
  | cons kv rest ih =>
    rw [List.map_cons, List.nodup_cons] at hnd
    obtain ⟨w1, hw1, hc1, ho1, hf1, hu1⟩ :=
      writeCell_spec it kv.1 kv.2 (hk kv (List.mem_cons_self _ _))
        (hint kv (List.mem_cons_self _ _))
    obtain ⟨w, hw, hc, ho, hf, hu⟩ :=
      ih w1 (fun x hx => hk x (List.mem_cons_of_mem _ hx))
        (fun x hx => hint x (List.mem_cons_of_mem _ hx)) hnd.2
    refine ⟨w, by simp [writeCells, hw1, hw], ?_, ?_, sameFixedColumns_trans hf hf1,
      hu.trans hu1⟩
    · intro x hx
      rcases List.mem_cons.mp hx with rfl | hx
      · rw [ho _ hnd.1, hc1]
      · exact hc x hx
    · intro k hkn
      rw [List.map_cons, List.mem_cons, not_or] at hkn
      rw [ho k hkn.2, ho1 k hkn.1]

/-- Pairing the keys of a list of entries with their values gives the entries
back. -/
theorem zip_fst_snd {α β : Type} (l : List (α × β)) :
    (l.map Prod.fst).zip (l.map Prod.snd) = l := by
  induction l with
  | nil => rfl
  | cons a l ih => simp [ih]

/-- If the statement rewrites every row it selects into a row related to it by
`R`, then on a table it relates the selected rows by `R`, position by
position, and keeps the others. -/
theorem exec_spec (now : Nat) (u : ItemUpdate) (R : Item → Item → Prop)
    (hrow : ∀ it : Item, ∃ w : Item, u.applyTo now it = some w ∧ R it w)
    (items : List Item) :
    ∃ items2 : List Item, u.exec now items = some items2
      ∧ List.Forall₂
          (fun old new => (old.id ≠ u.id → new = old) ∧ (old.id = u.id → R old new))
          items items2 := by
  induction items with
  | nil => exact ⟨[], rfl, List.Forall₂.nil⟩
  | cons it rest ih =>
    obtain ⟨rest2, hr, hf⟩ := ih
    by_cases hid : it.id = u.id
    · obtain ⟨w, hw, hR⟩ := hrow it
      refine ⟨w :: rest2, by simp [ItemUpdate.exec, hid, hw, hr], ?_⟩
      exact List.Forall₂.cons ⟨fun h => absurd hid h, fun _ => hR⟩ hf
    · refine ⟨it :: rest2, by simp [ItemUpdate.exec, hid, hr], ?_⟩
      exact List.Forall₂.cons ⟨fun _ => rfl, fun h => absurd h hid⟩ hf

/-- With no fragment collected the handler answers 400 and hands no statement
to the connection. -/
theorem putItem_of_noFields (env : Env) (items : List Item) (id : Int)
    (updates : List (String × ℚ))
    (h : (putCollect updates).1.length + (if touchesStock updates then 1 else 0) = 0) :
    putItem env items id updates = some (.noValidFields, items, none) := by
  simp only [putItem, h, if_true]

/-- With a fragment collected, any outcome of the handler has a status other
than 400 and carries the `UPDATE` built from the body; the table is the one
from before when the statement fails, its effect otherwise. -/
theorem putItem_of_fields (env : Env) (items : List Item) (id : Int)
    (updates : List (String × ℚ))
    (h : ¬ (putCollect updates).1.length + (if touchesStock updates then 1 else 0) = 0)
    (out : UpdateItemResponse × List Item × Option ItemUpdate)
    (hout : putItem env items id updates = some out) :
    out.1.status ≠ 400
      ∧ out.2.2 = some { columns := (putCollect updates).1, params := (putCollect updates).2,
                         touchUpdatedAt := touchesStock updates, id := id }
      ∧ (env.updateErr = true → out.1 = .updateFailed ∧ out.2.1 = items)
      ∧ (env.updateErr = false →
          ItemUpdate.exec env.now
            { columns := (putCollect updates).1, params := (putCollect updates).2,
              touchUpdatedAt := touchesStock updates, id := id } items = some out.2.1) := by
  simp only [putItem, h, if_false] at hout
  cases hu : env.updateErr with
  | true =>
    have e : (UpdateItemResponse.updateFailed, items,
        some ({ columns := (putCollect updates).1, params := (putCollect updates).2,
                touchUpdatedAt := touchesStock updates, id := id } : ItemUpdate)) = out := by
      simpa [hu] using hout
    subst e
    exact ⟨by simp [UpdateItemResponse.status], rfl, fun _ => ⟨rfl, rfl⟩, by simp⟩
  | false =>
    cases he : ItemUpdate.exec env.now
        { columns := (putCollect updates).1, params := (putCollect updates).2,
          touchUpdatedAt := touchesStock updates, id := id } items with
    | none => simp [hu, he] at hout
    | some items2 =>
      cases hg : env.getErr with
      | true =>
        have e : (UpdateItemResponse.itemNotFound, items2,
            some ({ columns := (putCollect updates).1, params := (putCollect updates).2,
                    touchUpdatedAt := touchesStock updates, id := id } : ItemUpdate))
            = out := by
          simpa [hu, he, hg] using hout
        subst e
        exact ⟨by simp [UpdateItemResponse.status], rfl, by simp, fun _ => rfl⟩
      | false =>
        cases hf : items2.find? (fun it => it.id == id) with
        | none =>
          have e : (UpdateItemResponse.itemNotFound, items2,
              some ({ columns := (putCollect updates).1, params := (putCollect updates).2,
                      touchUpdatedAt := touchesStock updates, id := id } : ItemUpdate))
              = out := by
            simpa [hu, he, hg, hf] using hout
          subst e
          exact ⟨by simp [UpdateItemResponse.status], rfl, by simp, fun _ => rfl⟩
        | some row =>
          have e : (UpdateItemResponse.ok (enrich row), items2,
              some ({ columns := (putCollect updates).1, params := (putCollect updates).2,
                      touchUpdatedAt := touchesStock updates, id := id } : ItemUpdate))
              = out := by
            simpa [hu, he, hg, hf] using hout
          subst e
          exact ⟨by simp [UpdateItemResponse.status], rfl, by simp, fun _ => rfl⟩

/-- With a fragment collected and the statement carried out, the handler
answers. -/
theorem putItem_defined (env : Env) (items items2 : List Item) (id : Int)
    (updates : List (String × ℚ))
    (h : ¬ (putCollect updates).1.length + (if touchesStock updates then 1 else 0) = 0)
    (hu : env.updateErr = false)
    (he : ItemUpdate.exec env.now
        { columns := (putCollect updates).1, params := (putCollect updates).2,
          touchUpdatedAt := touchesStock updates, id := id } items = some items2) :
    ∃ r : UpdateItemResponse,
      putItem env items id updates
        = some (r, items2,
            some { columns := (putCollect updates).1, params := (putCollect updates).2,
                   touchUpdatedAt := touchesStock updates, id := id }) := by
  simp only [putItem, h, if_false, hu, he]
  cases hg : env.getErr with
  | true => exact ⟨.itemNotFound, by simp⟩
  | false =>
    cases hf : items2.find? (fun it => it.id == id) with
    | none => exact ⟨.itemNotFound, by simp⟩
    | some row => exact ⟨.ok (enrich row), by simp⟩

/-- Claim C13.  `PUT /api/items/:id` answers 400, issues no `UPDATE` and leaves
the table as it is, if and only if none of the seven recognised keys is in the
body; and whatever it answers, the status is 400 exactly under that condition.
When a recognised key is present (the keys of the body being distinct and the
values given for the three count columns being integers) the handler issues
the `UPDATE` for the id of the path, whose `SET` clause names exactly the
recognised keys of the body, bound to their values in body order, plus
`updated_at` exactly when `bales_count`, `units_per_bale` or `total_units` is in
the body.  If the statement fails the table is as before.  Otherwise every row
with another id is kept, and in a row with that id each recognised key of the
body holds its value, every other numeric column is as before (so an
unrecognised key writes nothing), `updated_at` is the current time when a
stock key is present and is as before when none is, and id, subcategory, name,
stored health and `created_at` are kept. -/
theorem putItem_fields (env : Env) (items : List Item) (id : Int)
    (updates : List (String × ℚ)) :
    (putItem env items id updates = some (.noValidFields, items, none)
      ↔ ∀ k ∈ recognisedFields, k ∉ updates.map Prod.fst)
    ∧ (∀ out : UpdateItemResponse × List Item × Option ItemUpdate,
        putItem env items id updates = some out →
          (out.1.status = 400 ↔ ∀ k ∈ recognisedFields, k ∉ updates.map Prod.fst))
    ∧ ((∃ k ∈ recognisedFields, k ∈ updates.map Prod.fst) →
        (updates.map Prod.fst).Nodup →
        (∀ kv ∈ updates,
          kv.1 = "bales_count" ∨ kv.1 = "units_per_bale" ∨ kv.1 = "total_units" →
            kv.2.den = 1) →
        ∃ (r : UpdateItemResponse) (items2 : List Item) (u : ItemUpdate),
          putItem env items id updates = some (r, items2, some u)
          ∧ r.status ≠ 400
          ∧ u.id = id
          ∧ u.columns
              = (updates.filter (fun kv => recognisedFields.contains kv.1)).map Prod.fst
          ∧ u.params
              = (updates.filter (fun kv => recognisedFields.contains kv.1)).map Prod.snd
          ∧ (u.touchUpdatedAt = true
              ↔ "bales_count" ∈ updates.map Prod.fst ∨ "units_per_bale" ∈ updates.map Prod.fst
                  ∨ "total_units" ∈ updates.map Prod.fst)
          ∧ (env.updateErr = true → r = .updateFailed ∧ items2 = items)
          ∧ (env.updateErr = false →
              List.Forall₂
                (fun old new =>
                  (old.id ≠ id → new = old)
                  ∧ (old.id = id →
                      new.sameFixedColumns old
                      ∧ new.updated_at
                          = (if "bales_count" ∈ updates.map Prod.fst
                                ∨ "units_per_bale" ∈ updates.map Prod.fst
                                ∨ "total_units" ∈ updates.map Prod.fst
                             then env.now else old.updated_at)
                      ∧ (∀ kv ∈ updates, kv.1 ∈ recognisedFields → new.cell kv.1 = some kv.2)
                      ∧ (∀ k : String, ¬ (k ∈ recognisedFields ∧ k ∈ updates.map Prod.fst) →
                          new.cell k = old.cell k)))
                items items2)) := by
  by_cases hz : (putCollect updates).1.length + (if touchesStock updates then 1 else 0) = 0
  · have e := putItem_of_noFields env items id updates hz
    have hnone := (putItem_noFields_iff updates).mp hz
    refine ⟨⟨fun _ => hnone, fun _ => e⟩, ?_, ?_⟩
    · intro out hout
      rw [e] at hout
      cases hout
      exact ⟨fun _ => hnone, fun _ => rfl⟩
    · rintro ⟨k, hk, hmem⟩
      exact absurd hmem (hnone k hk)
  · have hsome : ¬ ∀ k ∈ recognisedFields, k ∉ updates.map Prod.fst :=
      fun hall => hz ((putItem_noFields_iff updates).mpr hall)
    refine ⟨⟨fun h => ?_, fun h => absurd h hsome⟩, ?_, ?_⟩
    · have := (putItem_of_fields env items id updates hz _ h).1
      exact absurd rfl this
    · intro out hout
      exact ⟨fun h => absurd h (putItem_of_fields env items id updates hz out hout).1,
        fun h => absurd h hsome⟩
    · intro _ hnd hint
      have hfl : ∀ kv ∈ updates.filter (fun kv => recognisedFields.contains kv.1),
          kv ∈ updates ∧ kv.1 ∈ recognisedFields := by
        intro kv hkv
        rw [List.mem_filter] at hkv
        exact ⟨hkv.1, by simpa using hkv.2⟩
      have hnd2 : ((updates.filter (fun kv => recognisedFields.contains kv.1)).map
          Prod.fst).Nodup :=
        List.Nodup.sublist ((List.filter_sublist _).map Prod.fst) hnd
      cases hu : env.updateErr with
      | true =>
        refine ⟨.updateFailed, items,
          { columns := (putCollect updates).1, params := (putCollect updates).2,
            touchUpdatedAt := touchesStock updates, id := id }, ?_, by decide, rfl, ?_, ?_,
          touchesStock_iff updates, fun _ => ⟨rfl, rfl⟩, by simp⟩
        · simp only [putItem, hz, if_false, hu, if_true]
        · simp only [putCollect_eq]
        · simp only [putCollect_eq]
      | false =>
        have hrow : ∀ it : Item, ∃ w : Item,
            ItemUpdate.applyTo env.now
              { columns := (putCollect updates).1, params := (putCollect updates).2,
                touchUpdatedAt := touchesStock updates, id := id } it = some w
            ∧ (w.sameFixedColumns it
              ∧ w.updated_at
                  = (if "bales_count" ∈ updates.map Prod.fst
                        ∨ "units_per_bale" ∈ updates.map Prod.fst
                        ∨ "total_units" ∈ updates.map Prod.fst
                     then env.now else it.updated_at)
              ∧ (∀ kv ∈ updates, kv.1 ∈ recognisedFields → w.cell kv.1 = some kv.2)
              ∧ (∀ k : String, ¬ (k ∈ recognisedFields ∧ k ∈ updates.map Prod.fst) →
                  w.cell k = it.cell k)) := by
          intro it
          obtain ⟨w, hw, hc, ho, hf, hua⟩ :=
            writeCells_spec (updates.filter (fun kv => recognisedFields.contains kv.1)) it
              (fun kv hkv => (hfl kv hkv).2)
              (fun kv hkv => hint kv (hfl kv hkv).1) hnd2
          have hcell : ∀ kv ∈ updates, kv.1 ∈ recognisedFields → w.cell kv.1 = some kv.2 := by
            intro kv hkv hrec
            exact hc kv (List.mem_filter.mpr ⟨hkv, by simpa using hrec⟩)
          have hother : ∀ k : String, ¬ (k ∈ recognisedFields ∧ k ∈ updates.map Prod.fst) →
              w.cell k = it.cell k := by
            intro k hk
            apply ho
            intro hmem
            obtain ⟨kv, hkv, rfl⟩ := List.mem_map.mp hmem
            exact hk ⟨(hfl kv hkv).2, List.mem_map.mpr ⟨kv, (hfl kv hkv).1, rfl⟩⟩
          by_cases ht : touchesStock updates = true
          · have ht2 := (touchesStock_iff updates).mp ht
            refine ⟨{ w with updated_at := env.now }, ?_, hf, ?_, hcell, hother⟩
            · simp only [ItemUpdate.applyTo, putCollect_eq, zip_fst_snd, hw, ht, if_true,
                Option.map_some']
            · rw [if_pos ht2]
          · have ht2 : ¬ ("bales_count" ∈ updates.map Prod.fst
                ∨ "units_per_bale" ∈ updates.map Prod.fst
                ∨ "total_units" ∈ updates.map Prod.fst) :=
              fun h => ht ((touchesStock_iff updates).mpr h)
            refine ⟨w, ?_, hf, ?_, hcell, hother⟩
            · simp only [ItemUpdate.applyTo, putCollect_eq, zip_fst_snd, hw, ht,
                Option.map_some']
              simp
            · rw [if_neg ht2, hua]
        obtain ⟨items2, he, hforall⟩ := exec_spec env.now _ _ hrow items
        obtain ⟨r, hr⟩ := putItem_defined env items items2 id updates hz hu he
        refine ⟨r, items2, _, hr, (putItem_of_fields env items id updates hz _ hr).1, rfl, ?_,
          ?_, touchesStock_iff updates, by simp, fun _ => hforall⟩
        · simp only [putCollect_eq]
        · simp only [putCollect_eq]

/-- A body with `total_units = 9`, `unit_price = 12.5` and an unrecognised
`color` writes the two columns `total_units` and `unit_price`. -/
theorem putItem_fields_witness :
    (∃ k ∈ recognisedFields,
        k ∈ [("total_units", (9 : ℚ)), ("unit_price", 25 / 2), ("color", 4)].map Prod.fst)
    ∧ ∃ (r : UpdateItemResponse) (items2 : List Item) (u : ItemUpdate),
        putItem quietEnv [sampleItem 3 4 5] 1
            [("total_units", 9), ("unit_price", 25 / 2), ("color", 4)]
          = some (r, items2, some u)
        ∧ r.status ≠ 400
        ∧ u.id = 1
        ∧ u.columns = ["total_units", "unit_price"]
        ∧ u.params = [9, 25 / 2]
        ∧ (u.touchUpdatedAt = true
            ↔ "bales_count"
                ∈ [("total_units", (9 : ℚ)), ("unit_price", 25 / 2), ("color", 4)].map Prod.fst
              ∨ "units_per_bale"
                ∈ [("total_units", (9 : ℚ)), ("unit_price", 25 / 2), ("color", 4)].map Prod.fst
              ∨ "total_units"
                ∈ [("total_units", (9 : ℚ)), ("unit_price", 25 / 2), ("color", 4)].map Prod.fst)
        ∧ (quietEnv.updateErr = true → r = .updateFailed ∧ items2 = [sampleItem 3 4 5])
        ∧ (quietEnv.updateErr = false →
            List.Forall₂
              (fun old new =>
                (old.id ≠ 1 → new = old)
                ∧ (old.id = 1 →
                    new.sameFixedColumns old
                    ∧ new.updated_at
                        = (if "bales_count"
                                ∈ [("total_units", (9 : ℚ)), ("unit_price", 25 / 2),
                                    ("color", 4)].map Prod.fst
                              ∨ "units_per_bale"
                                ∈ [("total_units", (9 : ℚ)), ("unit_price", 25 / 2),
                                    ("color", 4)].map Prod.fst
                              ∨ "total_units"
                                ∈ [("total_units", (9 : ℚ)), ("unit_price", 25 / 2),
                                    ("color", 4)].map Prod.fst
                           then quietEnv.now else old.updated_at)
                    ∧ (∀ kv ∈ [("total_units", (9 : ℚ)), ("unit_price", 25 / 2), ("color", 4)],
                        kv.1 ∈ recognisedFields → new.cell kv.1 = some kv.2)
                    ∧ (∀ k : String,
                        ¬ (k ∈ recognisedFields
                          ∧ k ∈ [("total_units", (9 : ℚ)), ("unit_price", 25 / 2),
                                  ("color", 4)].map Prod.fst) →
                        new.cell k = old.cell k)))
              [sampleItem 3 4 5] items2) :=
  ⟨⟨"total_units", by decide, by decide⟩,
   (putItem_fields quietEnv [sampleItem 3 4 5] 1
      [("total_units", 9), ("unit_price", 25 / 2), ("color", 4)]).2.2
      ⟨"total_units", by decide, by decide⟩ (by decide)
      (by
        intro kv hkv hkey
        simp only [List.mem_cons, List.mem_singleton, List.not_mem_nil, or_false] at hkv
        rcases hkv with rfl | rfl | rfl
        · rfl
        · simp at hkey
        · simp at hkey)⟩

/-- A body with `total_units = 9` and an unrecognised `color`, sent for the
sample row: the row read back has 9 units and the new `updated_at`, and is
answered with status 200. -/
theorem putItem_sample_run :
    putItem quietEnv [sampleItem 3 4 5] 1 [("total_units", 9), ("color", 4)]
      = some (.ok (enrich { sampleItem 3 4 5 with total_units := 9, updated_at := 7 }),
              [{ sampleItem 3 4 5 with total_units := 9, updated_at := 7 }],
              some { columns := ["total_units"], params := [9], touchUpdatedAt := true,
                     id := 1 }) := by
  rfl

/-! ## Invariant and frame of the sales handler -/

/-- The three ways a run of the sales handler ends: rejected by validation with
the connection untouched; answered with an error after a `ROLLBACK` of the
transaction it began; or answered 201 after the insert, the stock update and
the `COMMIT`. -/
theorem postSale_cases (env : Env) (db : Db) (req : SaleRequest) :
    (∃ r : Response, postSale env db req = (r, db) ∧ r.status = 400)
    ∨ (∃ (r : Response) (d1 : Db),
        postSale env db req = (r, d1.rollback) ∧ r.status ≠ 201
        ∧ d1.txn = db.beginTransaction.txn)
    ∨ (∃ (i : Int) (t : String) (q : Int) (p : ℚ) (item : Item),
        req = { item_id := some i, type := some t, quantity := some q, price := some p }
        ∧ db.getItem i = some item
        ∧ (if t = "bale" then q * item.units_per_bale else q) ≤ item.total_units
        ∧ postSale env db req
          = (.created (nextSaleId db.sales) i t q p ((q : ℚ) * p)
                (if t = "bale" then q * item.units_per_bale else q),
             ((((db.beginTransaction.logged (Stmt.selectItem i)).insertSale env.now i t q p
                  ((q : ℚ) * p)).1).updateStock env.now
                  (if t = "bale" then q * item.units_per_bale else q) i).commit)) := by
  obtain ⟨oi, ot, oq, op⟩ := req
  cases oi with
  | none => exact Or.inl ⟨.invalidFields, by simp [postSale, saleStart], rfl⟩
  | some i =>
  cases ot with
  | none => exact Or.inl ⟨.invalidFields, by simp [postSale, saleStart], rfl⟩
  | some t =>
  cases oq with
  | none => exact Or.inl ⟨.invalidFields, by simp [postSale, saleStart], rfl⟩
  | some q =>
  cases op with
  | none => exact Or.inl ⟨.invalidFields, by simp [postSale, saleStart], rfl⟩
  | some p =>
  by_cases hv : i ≠ 0 ∧ (t = "unit" ∨ t = "bale") ∧ 0 < q ∧ p ≠ 0
  · obtain ⟨hi, ht, hq, hp⟩ := hv
    cases hget : env.getErr with
    | true =>
      refine Or.inr (Or.inl ⟨.databaseError, db.beginTransaction.logged (Stmt.selectItem i),
        ?_, by decide, rfl⟩)
      simp [postSale, saleStart_valid db i t q p hi ht hq hp, onGet, hget]
    | false =>
    cases hitem : db.getItem i with
    | none =>
      have hg : (db.beginTransaction.logged (Stmt.selectItem i)).getItem i = none := hitem
      refine Or.inr (Or.inl ⟨.itemNotFound, db.beginTransaction.logged (Stmt.selectItem i),
        ?_, by decide, rfl⟩)
      simp [postSale, saleStart_valid db i t q p hi ht hq hp, onGet, hget, hg]
    | some item =>
    have hg : (db.beginTransaction.logged (Stmt.selectItem i)).getItem i = some item := hitem
    by_cases hs : item.total_units < (if t = "bale" then q * item.units_per_bale else q)
    · refine Or.inr (Or.inl ⟨.insufficientStock item.total_units
          (if t = "bale" then q * item.units_per_bale else q),
        db.beginTransaction.logged (Stmt.selectItem i), ?_, by simp [Response.status], rfl⟩)
      simp only [postSale, saleStart_valid db i t q p hi ht hq hp, onGet, hget, hg]
      simp [hs]
    · cases hins : env.insertErr with
      | true =>
        refine Or.inr (Or.inl ⟨.recordFailed,
          (db.beginTransaction.logged (Stmt.selectItem i)).logged
            (Stmt.insertSale i t q p ((q : ℚ) * p)), ?_, by decide, rfl⟩)
        simp only [postSale, saleStart_valid db i t q p hi ht hq hp, onGet, hget, hg]
        simp only [hs, if_false, onInsert, hins, if_true]
        simp [hp]
      | false =>
      cases hupd : env.updateErr with
      | true =>
        refine Or.inr (Or.inl ⟨.updateFailed,
          (((db.beginTransaction.logged (Stmt.selectItem i)).insertSale env.now i t q p
            ((q : ℚ) * p)).1).logged
            (Stmt.updateStock (if t = "bale" then q * item.units_per_bale else q) i),
          ?_, by decide, rfl⟩)
        simp only [postSale, saleStart_valid db i t q p hi ht hq hp, onGet, hget, hg]
        simp only [hs, if_false, onInsert, hins, onUpdate, hupd, if_true]
        simp [hp]
      | false =>
        exact Or.inr (Or.inr ⟨i, t, q, p, item, rfl, hitem, not_lt.mp hs,
          postSale_success env db i t q p item hi ht hq hp hget hins hupd hitem (not_lt.mp hs)⟩)
  · obtain ⟨r, hr, hst, _⟩ := saleStart_invalid_of_not db i t q p hv
    exact Or.inl ⟨r, by simp [postSale, hr], hst⟩

/-- A `ROLLBACK` of the transaction begun on a connection with none open gives
back the tables found at the start. -/
theorem rollback_restores (db d1 : Db) (htxn : db.txn = none)
    (h : d1.txn = db.beginTransaction.txn) :
    d1.rollback.items = db.items ∧ d1.rollback.sales = db.sales ∧ d1.rollback.txn = none := by
  have h2 : d1.txn = some (db.items, db.sales) := by
    rw [h]; simp [Db.beginTransaction, htxn]
  simp [Db.rollback, h2]

/-- The stock `UPDATE` of one item leaves the `total_units` of the items with
another id as they were. -/
theorem totalUnits_updateStock_ne (db : Db) (now : Nat) (d i j : Int) (h : j ≠ i) :
    (db.updateStock now d i).totalUnits j = db.totalUnits j := by
  simp only [Db.totalUnits, Db.getItem, Db.updateStock]
  congr 1
  induction db.items with
  | nil => rfl
  | cons a l ih =>
    simp only [List.map_cons, List.find?_cons]
    by_cases ha : a.id = i
    · have hj : (a.id == j) = false := by
        simp only [beq_eq_false_iff_ne, ne_eq]
        intro e; exact h (e ▸ ha ▸ rfl)
      simp only [ha, if_true]
      have hj2 : (i == j) = false := by
        simp only [beq_eq_false_iff_ne, ne_eq]; exact fun e => h e.symm
      simp only [hj2]
      rw [ha] at hj
      simp only [hj2] at hj ⊢
      exact ih
    · simp only [ha, if_false]
      cases hb : (a.id == j)
      · exact ih
      · rfl

/-- One run of the sales handler, whatever the request and the failures, keeps
no transaction open and keeps a non-negative `total_units` non-negative. -/
theorem postSale_keeps_stock_nonneg (env : Env) (db : Db) (req : SaleRequest) (j n : Int)
    (htxn : db.txn = none) (hj : db.totalUnits j = some n) (hn : 0 ≤ n) :
    (postSale env db req).2.txn = none
      ∧ ∃ m : Int, (postSale env db req).2.totalUnits j = some m ∧ 0 ≤ m := by
  rcases postSale_cases env db req with ⟨r, e, _⟩ | ⟨r, d1, e, _, h1⟩ |
    ⟨i, t, q, p, item, _, hitem, hstock, e⟩
  · rw [e]; exact ⟨htxn, n, hj, hn⟩
  · obtain ⟨hi, _, ht⟩ := rollback_restores db d1 htxn h1
    rw [e]
    refine ⟨ht, n, ?_, hn⟩
    have : d1.rollback.totalUnits j = db.totalUnits j := by
      simp only [Db.totalUnits, Db.getItem, hi]
    rw [this]; exact hj
  · rw [e]
    refine ⟨rfl, ?_⟩
    by_cases hji : j = i
    · subst hji
      have hn2 : item.total_units = n := by
        have : db.totalUnits j = some item.total_units := by
          simp only [Db.totalUnits, hitem, Option.map_some']
        rw [this] at hj
        exact Option.some.inj hj
      refine ⟨item.total_units - (if t = "bale" then q * item.units_per_bale else q), ?_, ?_⟩
      · exact totalUnits_updateStock _ env.now _ j item hitem
      · omega
    · refine ⟨n, ?_, hn⟩
      have := totalUnits_updateStock_ne
        ((db.beginTransaction.logged (Stmt.selectItem i)).insertSale env.now i t q p
          ((q : ℚ) * p)).1 env.now (if t = "bale" then q * item.units_per_bale else q) i j hji
      exact this.trans hj

/-- Claim C14.  On a connection with no transaction open, an item whose
`total_units` is at least 0 still has `total_units` at least 0 after
`POST /api/sales` has run to its response, for every request (any fields
present or not, any type, quantity and price, any `units_per_bale`) and every
choice of failing statements; hence also after any finite list of requests
handled one after the other. -/
theorem stock_stays_nonneg (db : Db) (j n : Int)
    (htxn : db.txn = none) (hj : db.totalUnits j = some n) (hn : 0 ≤ n) :
    (∀ (env : Env) (req : SaleRequest),
        ∃ m : Int, (postSale env db req).2.totalUnits j = some m ∧ 0 ≤ m)
    ∧ (∀ reqs : List (Env × SaleRequest),
        ∃ m : Int, (runSales db reqs).totalUnits j = some m ∧ 0 ≤ m) := by
  refine ⟨fun env req => (postSale_keeps_stock_nonneg env db req j n htxn hj hn).2, ?_⟩
  intro reqs
  induction reqs generalizing db n with
  | nil => exact ⟨n, hj, hn⟩
  | cons r rest ih =>
    obtain ⟨ht, m, hm, hm0⟩ := postSale_keeps_stock_nonneg r.1 db r.2 j n htxn hj hn
    exact ih (postSale r.1 db r.2).2 m ht hm hm0

/-- An item with 5 units and `units_per_bale = -4` keeps a non-negative stock
under every request and every list of requests. -/
theorem stock_stays_nonneg_witness :
    (∀ (env : Env) (req : SaleRequest),
        ∃ m : Int, (postSale env (sampleDb 3 (-4) 5) req).2.totalUnits 1 = some m ∧ 0 ≤ m)
    ∧ (∀ reqs : List (Env × SaleRequest),
        ∃ m : Int, (runSales (sampleDb 3 (-4) 5) reqs).totalUnits 1 = some m ∧ 0 ≤ m) :=
  stock_stays_nonneg (sampleDb 3 (-4) 5) 1 5 rfl rfl (by decide)

/-- Claim C15.  When the handler answers 201, the `items` table afterwards is
the previous table mapped row by row by a function that leaves every row with
another id untouched, and on the sold item changes `total_units` (by the units
deducted) and `updated_at` only: id, subcategory, name, `bales_count`,
`units_per_bale`, the four prices, the stored `health_status` and
`health_color` and `created_at` are kept.  The `sales` table is the previous
table with one row appended, so no existing sale row is changed or removed. -/
theorem successful_sale_frame (env : Env) (db : Db) (req : SaleRequest)
    (h : (postSale env db req).1.status = 201) :
    ∃ (i d : Int) (row : Sale) (f : Item → Item),
      req.item_id = some i
      ∧ (postSale env db req).2.items = db.items.map f
      ∧ (∀ it : Item, it.id ≠ i → f it = it)
      ∧ (∀ it : Item, it.id = i →
          (f it).total_units = it.total_units - d ∧ (f it).updated_at = env.now)
      ∧ (∀ it : Item,
          (f it).id = it.id ∧ (f it).subcategory_id = it.subcategory_id
          ∧ (f it).name = it.name ∧ (f it).bales_count = it.bales_count
          ∧ (f it).units_per_bale = it.units_per_bale ∧ (f it).bale_price = it.bale_price
          ∧ (f it).unit_price = it.unit_price ∧ (f it).landing_price = it.landing_price
          ∧ (f it).selling_price = it.selling_price
          ∧ (f it).health_status = it.health_status ∧ (f it).health_color = it.health_color
          ∧ (f it).created_at = it.created_at)
      ∧ (postSale env db req).2.sales = db.sales ++ [row] := by
  rcases postSale_cases env db req with ⟨r, e, hr⟩ | ⟨r, d1, e, hr, _⟩ |
    ⟨i, t, q, p, item, hreq, _, _, e⟩
  · rw [e] at h; rw [hr] at h; exact absurd h (by decide)
  · rw [e] at h; exact absurd h hr
  · refine ⟨i, (if t = "bale" then q * item.units_per_bale else q),
      { id := nextSaleId db.sales, item_id := i, type := t, quantity := q, price := p,
        total_amount := (q : ℚ) * p, created_at := env.now },
      (fun it =>
        if it.id = i then
          { it with
            total_units := it.total_units - (if t = "bale" then q * item.units_per_bale else q),
            updated_at := env.now }
        else it), ?_, ?_, ?_, ?_, ?_, ?_⟩
    · rw [hreq]
    · rw [e]; rfl
    · intro it hne; simp [hne]
    · intro it hid; simp [hid]
    · intro it
      by_cases hid : it.id = i <;> simp [hid]
    · rw [e]; rfl

/-- The sale of 2 bales of 4 units from 10 units in stock is answered 201 and
frames the table as stated. -/
theorem successful_sale_frame_witness :
    (postSale quietEnv (sampleDb 3 4 10) (sampleRequest "bale" 2)).1.status = 201
    ∧ ∃ (i d : Int) (row : Sale) (f : Item → Item),
      (sampleRequest "bale" 2).item_id = some i
      ∧ (postSale quietEnv (sampleDb 3 4 10) (sampleRequest "bale" 2)).2.items
          = (sampleDb 3 4 10).items.map f
      ∧ (∀ it : Item, it.id ≠ i → f it = it)
      ∧ (∀ it : Item, it.id = i →
          (f it).total_units = it.total_units - d ∧ (f it).updated_at = quietEnv.now)
      ∧ (∀ it : Item,
          (f it).id = it.id ∧ (f it).subcategory_id = it.subcategory_id
          ∧ (f it).name = it.name ∧ (f it).bales_count = it.bales_count
          ∧ (f it).units_per_bale = it.units_per_bale ∧ (f it).bale_price = it.bale_price
          ∧ (f it).unit_price = it.unit_price ∧ (f it).landing_price = it.landing_price
          ∧ (f it).selling_price = it.selling_price
          ∧ (f it).health_status = it.health_status ∧ (f it).health_color = it.health_color
          ∧ (f it).created_at = it.created_at)
      ∧ (postSale quietEnv (sampleDb 3 4 10) (sampleRequest "bale" 2)).2.sales
          = (sampleDb 3 4 10).sales ++ [row] :=
  ⟨by decide,
   successful_sale_frame quietEnv (sampleDb 3 4 10) (sampleRequest "bale" 2) (by decide)⟩

end Grumpy
